import Mathlib

/-! GameLayer: world builder, collision queries, mode machine and frame step.

A shallow embedding of `src/game/GameLayer.jsx` and `src/game/levelConfig.js`.

JavaScript numbers are modelled as rationals (`ℚ`): `GRAVITY = 0.9` is `9/10`,
`CAMERA_TARGET_Y = 0.6` is `3/5`, and arithmetic is exact, except in `frameDouble`, which
carries the camera arithmetic of the frame callback out in IEEE doubles (`toDouble`), where the
rounding decides the claims.  Refs (`xRef`, `yRef`, ...) become fields of explicit state
records that the operations take and return.
-/

namespace GameLayer

/-! ## Constants (GameLayer.jsx, lines 7-28) -/

def CHAR_W : ℚ := 32
def CHAR_H : ℚ := 48
def SPEED_X : ℚ := 4
def JUMP_V : ℚ := 16
def GRAVITY : ℚ := 9 / 10
def TOWER_LEFT : ℚ := 60
def TOWER_RIGHT : ℚ := 60
def CAMERA_TARGET_Y : ℚ := 3 / 5
def CLIMB_SPEED : ℚ := 4
def LADDER_W : ℚ := 54
def LADDER_MARGIN_RIGHT : ℚ := 70
def DEFAULT_PLATFORM_Y_OFFSET : ℚ := 260
def SCROLL_STOP_DELAY_MS : ℕ := 180

/-! ## Data model -/

/-- A platform object `{type: 'platform', floor, x1, x2, y}`. -/
structure Platform where
  floor : String
  x1 : ℚ
  x2 : ℚ
  y : ℚ
  deriving DecidableEq, Repr

/-- A ladder object `{type: 'ladder', x1, x2, yTop, yBot}`. -/
structure Ladder where
  x1 : ℚ
  x2 : ℚ
  yTop : ℚ
  yBot : ℚ
  deriving DecidableEq, Repr

/-- An element of `objectsRef.current`: the `type` tag selects the shape. -/
inductive WorldObj where
  | platform (p : Platform)
  | ladder (l : Ladder)
  deriving DecidableEq, Repr

/-- One entry `{x, w, yOffset}` of a floor's `platforms` array in `LEVEL`. -/
structure PlatformCfg where
  x : ℚ
  w : ℚ
  yOffset : ℚ
  deriving DecidableEq, Repr

/-- The level description: `LEVEL[id]?.platforms`, `none` when the floor (or its
`platforms` field) is absent. -/
abbrev LevelConfig := String → Option (List PlatformCfg)

/-- The shipped `LEVEL` of levelConfig.js. -/
def LEVEL : LevelConfig := fun id =>
  if id = "hero" then
    some [⟨60, 220, 260⟩, ⟨360, 180, 340⟩]
  else if id = "about" then
    some [⟨80, 200, 240⟩, ⟨320, 160, 320⟩, ⟨560, 200, 260⟩]
  else if id = "projects" then
    some [⟨70, 160, 260⟩, ⟨280, 220, 360⟩, ⟨560, 180, 300⟩]
  else if id = "skills" then
    some [⟨90, 240, 260⟩, ⟨390, 160, 330⟩, ⟨600, 160, 250⟩]
  else if id = "contact" then
    some [⟨120, 260, 280⟩, ⟨460, 240, 340⟩]
  else none

/-- One entry of `zones`: the floor id and `ref.current?.offsetTop`
(`none` while the section is not mounted). -/
structure Zone where
  id : String
  top : Option ℚ
  deriving DecidableEq, Repr

/-- The character refs `xRef`, `yRef`, `vyRef`, `onGroundRef`. -/
structure Character where
  x : ℚ
  y : ℚ
  vy : ℚ
  onGround : Bool
  deriving DecidableEq, Repr

/-- The initial refs: `useRef(200)`, `useRef(0)`, `useRef(0)`, `useRef(false)`. -/
def Character.initial : Character := ⟨200, 0, 0, false⟩

/-- The held keys read by the frame step (`keys.current[...]`, absent = not held). -/
structure Keys where
  ArrowLeft : Bool
  ArrowRight : Bool
  ArrowUp : Bool
  ArrowDown : Bool
  Space : Bool
  deriving DecidableEq, Repr

/-- No key held. -/
def Keys.none : Keys := ⟨false, false, false, false, false⟩

/-- The simulation state touched by `rebuildWorld`: `objectsRef` and the character refs. -/
structure World where
  objects : List WorldObj
  char : Character
  deriving DecidableEq, Repr

/-! ## Ladder column (lines 60-62) -/

def getLadderX1 (innerWidth : ℚ) : ℚ := max 0 (innerWidth - LADDER_MARGIN_RIGHT - LADDER_W)

def getLadderX2 (innerWidth : ℚ) : ℚ := getLadderX1 innerWidth + LADDER_W

def getLadderXCenter (innerWidth : ℚ) : ℚ := getLadderX1 innerWidth + LADDER_W / 2 - CHAR_W / 2

/-! ## rebuildWorld (lines 64-148) -/

/-- The guaranteed base ledge of one floor (lines 75-87): pushed only when
`platformRight > platformLeft`. -/
def fallbackPlatforms (innerWidth : ℚ) (id : String) (top : ℚ) : List WorldObj :=
  let ladderX1 := getLadderX1 innerWidth
  let platformLeft : ℚ := 80
  let platformRight : ℚ := ladderX1 - 10
  if platformRight > platformLeft then
    [WorldObj.platform ⟨id, platformLeft, platformRight, top + DEFAULT_PLATFORM_Y_OFFSET⟩]
  else []

/-- The authored platforms of one floor (lines 92-100). -/
def authoredPlatforms (level : LevelConfig) (id : String) (top : ℚ) : List WorldObj :=
  ((level id).getD []).map
    (fun p => WorldObj.platform ⟨id, p.x, p.x + p.w, top + p.yOffset⟩)

/-- One iteration of the loop over `floorIds` (lines 68-101); an unmounted floor is skipped. -/
def floorObjects (level : LevelConfig) (innerWidth : ℚ) (z : Zone) : List WorldObj :=
  match z.top with
  | Option.none => []
  | some top => fallbackPlatforms innerWidth z.id top ++ authoredPlatforms level z.id top

/-- An entry `{id, top, standY}` of `floorMeta`. -/
structure FloorMeta where
  id : String
  top : ℚ
  standY : ℚ
  deriving DecidableEq, Repr

/-- The `.map` callback of lines 105-112; `none` is the `null` removed by `.filter(Boolean)`. -/
def floorMetaOf (level : LevelConfig) (z : Zone) : Option FloorMeta :=
  match z.top with
  | Option.none => Option.none
  | some top =>
    let yOffset := match ((level z.id).getD []).head? with
      | some p => p.yOffset
      | Option.none => DEFAULT_PLATFORM_Y_OFFSET
    some ⟨z.id, top, top + yOffset - CHAR_H⟩

/-- The list `floorMeta` (lines 104-114): map, drop nulls, stable sort by `top`. -/
def floorMeta (level : LevelConfig) (zones : List Zone) : List FloorMeta :=
  (zones.filterMap (floorMetaOf level)).insertionSort (fun a b => a.top ≤ b.top)

/-- `Math.min(...xs)` for a non-empty argument list (it is only called on one). -/
def mathMin : List ℚ → ℚ
  | [] => 0
  | a :: t => t.foldl min a

/-- `Math.max(...xs)` for a non-empty argument list (it is only called on one). -/
def mathMax : List ℚ → ℚ
  | [] => 0
  | a :: t => t.foldl max a

/-- The global ladder (lines 117-128): one segment, only with two or more measurable floors. -/
def ladderObjects (level : LevelConfig) (innerWidth : ℚ) (zones : List Zone) : List WorldObj :=
  let fm := floorMeta level zones
  if fm.length ≥ 2 then
    let yTop := mathMin (fm.map (fun f => f.standY))
    let yBot := mathMax (fm.map (fun f => f.standY))
    [WorldObj.ladder ⟨getLadderX1 innerWidth, getLadderX2 innerWidth, yTop, yBot⟩]
  else []

/-- The sort key of lines 133-134: `y` of a platform, `yTop` of a ladder. -/
def sortKey : WorldObj → ℚ
  | WorldObj.platform p => p.y
  | WorldObj.ladder l => l.yTop

/-- The objects before the final sort: every floor's platforms, then the ladder. -/
def unsortedObjects (level : LevelConfig) (innerWidth : ℚ) (zones : List Zone) : List WorldObj :=
  zones.flatMap (floorObjects level innerWidth) ++ ladderObjects level innerWidth zones

/-- The object list stored in `objectsRef.current` (line 138), after the stable sort
of lines 132-136. -/
def buildObjects (level : LevelConfig) (innerWidth : ℚ) (zones : List Zone) : List WorldObj :=
  (unsortedObjects level innerWidth zones).insertionSort (fun a b => sortKey a ≤ sortKey b)

/-- The `objects.find((o) => o.type === 'platform')` of line 141. -/
def firstPlatform : List WorldObj → Option Platform
  | [] => Option.none
  | WorldObj.platform p :: _ => some p
  | WorldObj.ladder _ :: rest => firstPlatform rest

/-- The spawn of lines 141-147. -/
def spawn (innerWidth : ℚ) (objects : List WorldObj) (c : Character) : Character :=
  match firstPlatform objects with
  | some p =>
    if c.y = 0 then ⟨getLadderXCenter innerWidth, p.y - CHAR_H, 0, true⟩ else c
  | Option.none => c

/-- The whole of `rebuildWorld`: replaces the object list and spawns the character if unset. -/
def rebuildWorld (level : LevelConfig) (innerWidth : ℚ) (zones : List Zone) (w : World) : World :=
  let objects := buildObjects level innerWidth zones
  ⟨objects, spawn innerWidth objects w.char⟩

/-! ## Collision queries (lines 204-224) -/

/-- The `findLandingPlatform` loop: the first platform with `withinX && crossed`. -/
def findLandingPlatform (objects : List WorldObj) (x prevBottom nextBottom : ℚ) :
    Option Platform :=
  match objects with
  | [] => Option.none
  | WorldObj.ladder _ :: rest => findLandingPlatform rest x prevBottom nextBottom
  | WorldObj.platform o :: rest =>
    let withinX := decide (x + CHAR_W > o.x1) && decide (x < o.x2)
    let crossed := decide (prevBottom ≤ o.y) && decide (nextBottom ≥ o.y)
    if withinX && crossed then some o
    else findLandingPlatform rest x prevBottom nextBottom

/-- The `getLadder` loop: the first ladder with `withinX && withinY`. -/
def getLadder (objects : List WorldObj) (x y : ℚ) : Option Ladder :=
  match objects with
  | [] => Option.none
  | WorldObj.platform _ :: rest => getLadder rest x y
  | WorldObj.ladder o :: rest =>
    let withinX := decide (x + CHAR_W > o.x1) && decide (x < o.x2)
    let withinY := decide (y ≥ o.yTop - 40) && decide (y ≤ o.yBot + 40)
    if withinX && withinY then some o
    else getLadder rest x y

/-! ## Frame step (lines 226-321) -/

/-- Horizontal movement and wall clamp (lines 253-257). -/
def wallClampX (innerWidth : ℚ) (keys : Keys) (x : ℚ) : ℚ :=
  let x := if keys.ArrowLeft then x - SPEED_X else x
  let x := if keys.ArrowRight then x + SPEED_X else x
  let minX := TOWER_LEFT
  let maxX := innerWidth - TOWER_RIGHT - CHAR_W
  max minX (min maxX x)

/-- The jump condition of line 288. -/
def jumps (keys : Keys) (c : Character) : Bool :=
  (keys.Space || keys.ArrowUp) && c.onGround

/-- The vertical velocity after the jump impulse and the gravity increment (lines 288-293). -/
def jumpGravityVy (keys : Keys) (c : Character) : ℚ :=
  (if jumps keys c then -JUMP_V else c.vy) + GRAVITY

/-- The ladder branch (lines 270-285) for the ladder `ladderNow` found at `(x, y)`. -/
def ladderBranch (ladderNow : Ladder) (keys : Keys) (x y : ℚ) : Character :=
  if keys.ArrowUp || keys.ArrowDown then
    let x := max ladderNow.x1 (min (ladderNow.x2 - CHAR_W) x)
    let y := if keys.ArrowUp then y - CLIMB_SPEED else y
    let y := if keys.ArrowDown then y + CLIMB_SPEED else y
    let y := max ladderNow.yTop (min ladderNow.yBot y)
    ⟨x, y, 0, false⟩
  else
    ⟨x, y, 0, false⟩

/-- The platform-physics branch (lines 287-307) at the wall-clamped `x`. -/
def physicsBranch (objects : List WorldObj) (keys : Keys) (c : Character) (x : ℚ) : Character :=
  let vy := jumpGravityVy keys c
  let prevBottom := c.y + CHAR_H
  let nextY := c.y + vy
  let nextBottom := nextY + CHAR_H
  let landing :=
    if vy > 0 then findLandingPlatform objects x prevBottom nextBottom else Option.none
  match landing with
  | some p => ⟨x, p.y - CHAR_H, 0, true⟩
  | Option.none => ⟨x, nextY, vy, false⟩

/-- The Focused part of the frame callback up to "Save back" (lines 252-313):
the character refs after the step. -/
def focusedStep (innerWidth : ℚ) (objects : List WorldObj) (keys : Keys) (c : Character) :
    Character :=
  let x := wallClampX innerWidth keys c.x
  match getLadder objects x c.y with
  | some ladderNow => ladderBranch ladderNow keys x c.y
  | Option.none => physicsBranch objects keys c x

/-- The window metrics read by the frame callback. -/
structure Viewport where
  innerWidth : ℚ
  innerHeight : ℚ
  scrollY : ℚ
  deriving DecidableEq, Repr

/-- The argument of `setRender`. -/
structure Render where
  x : ℚ
  y : ℚ
  deriving DecidableEq, Repr

/-- What one frame callback does: the character refs afterwards, the `top` passed to
`window.scrollTo` (if it is called) and the `setRender` argument. -/
structure FrameResult where
  char : Character
  scrollTo : Option ℚ
  render : Render
  deriving DecidableEq, Repr

/-- The frame callback (lines 226-321), its arithmetic taken exactly (`frameDouble` below is
the same callback with the arithmetic rounded to doubles).  `scrollYAfter top` is the
`window.scrollY` the browser reports right after `window.scrollTo` was called with `top`. -/
def frame (vp : Viewport) (scrollYAfter : ℚ → ℚ) (objects : List WorldObj) (keys : Keys)
    (isFocused autoLadder : Bool) (c : Character) : FrameResult :=
  let targetScreenY := vp.innerHeight * CAMERA_TARGET_Y
  if !isFocused then
    if autoLadder then
      let ladderX := getLadderXCenter vp.innerWidth
      ⟨⟨ladderX, vp.scrollY + targetScreenY, 0, false⟩, Option.none, ⟨ladderX, targetScreenY⟩⟩
    else
      ⟨c, Option.none, ⟨c.x, c.y - vp.scrollY⟩⟩
  else
    let c1 := focusedStep vp.innerWidth objects keys c
    let cameraY := max 0 (c1.y - targetScreenY)
    ⟨c1, some cameraY, ⟨c1.x, c1.y - scrollYAfter cameraY⟩⟩

/-- Consecutive Focused frames, one key set per frame. -/
def runFocused (innerWidth : ℚ) (objects : List WorldObj) (c : Character) :
    List Keys → Character
  | [] => c
  | k :: ks => runFocused innerWidth objects (focusedStep innerWidth objects k c) ks

/-! ## Double-precision arithmetic of the frame callback -/

/-- Round a rational to the nearest integer, ties to the even one. -/
def roundHalfEven (q : ℚ) : ℤ :=
  if q - ⌊q⌋ < 1 / 2 then ⌊q⌋
  else if 1 / 2 < q - ⌊q⌋ then ⌊q⌋ + 1
  else if ⌊q⌋ % 2 = 0 then ⌊q⌋ else ⌊q⌋ + 1

/-- The IEEE 754 binary64 value of a rational (round to nearest, ties to even): the nearest
multiple of `2 ^ (e − 52)` with `e = ⌊log₂ |q|⌋`.  This is the rounding every JavaScript
arithmetic operation applies to its exact result, for results in the normal range
`2⁻¹⁰²² ≤ |q| < 2¹⁰²⁴` (subnormals and overflow are not modelled). -/
def toDouble (q : ℚ) : ℚ :=
  if q = 0 then 0
  else roundHalfEven (q / 2 ^ (Int.log 2 |q| - 52)) * 2 ^ (Int.log 2 |q| - 52)

/-- The double denoted by the literal `0.6` of line 17. -/
def CAMERA_TARGET_Y_double : ℚ := toDouble (3 / 5)

/-- The frame callback (lines 226-321) with the arithmetic of lines 231, 239, 245, 316 and 320
carried out in doubles: every product, sum and difference is rounded by `toDouble`.  The
ladder column of lines 60-62 is integer arithmetic on `window.innerWidth`, exact in doubles,
and the character step is `focusedStep`.  `scrollYAfter top` is the `window.scrollY` the
browser reports right after `window.scrollTo` was called with `top`. -/
def frameDouble (vp : Viewport) (scrollYAfter : ℚ → ℚ) (objects : List WorldObj) (keys : Keys)
    (isFocused autoLadder : Bool) (c : Character) : FrameResult :=
  let targetScreenY := toDouble (vp.innerHeight * CAMERA_TARGET_Y_double)
  if !isFocused then
    if autoLadder then
      let ladderX := getLadderXCenter vp.innerWidth
      ⟨⟨ladderX, toDouble (vp.scrollY + targetScreenY), 0, false⟩, Option.none,
        ⟨ladderX, targetScreenY⟩⟩
    else
      ⟨c, Option.none, ⟨c.x, toDouble (c.y - vp.scrollY)⟩⟩
  else
    let c1 := focusedStep vp.innerWidth objects keys c
    let cameraY := max 0 (toDouble (c1.y - targetScreenY))
    ⟨c1, some cameraY, ⟨c1.x, toDouble (c1.y - scrollYAfter cameraY)⟩⟩

/-! ## Mode and auto-ride machine (lines 40, 55-56, 162-202, 416) -/

/-- The mode flags: the React state `isFocused`, the value of `isFocused` captured by the
currently installed `onScroll` closure, `autoLadderRef.current`, and whether the timer held
in `scrollStopTimerRef` is still pending. -/
structure ModeState where
  isFocused : Bool
  handlerFocused : Bool
  autoLadder : Bool
  timerPending : Bool
  deriving DecidableEq, Repr

/-- The events that touch the mode flags. -/
inductive Event where
  | scroll
  | click
  | keyG
  | keyEscape
  | timerExpiry
  | effectCleanup
  | frameStep
  deriving DecidableEq, Repr

/-- The state at mount: Browse, no auto-ride, no timer. -/
def ModeState.initial : ModeState := ⟨false, false, false, false⟩

/-- The effect of one event on the mode flags.
* `scroll`: `onScroll` (lines 187-195), with the `isFocused` its closure captured;
* `click`, `keyG`: `setIsFocused(true)` (lines 164, 416); `keyEscape`: `setIsFocused(false)`;
* `timerExpiry`: the timeout callback of lines 192-194, if the timer is pending;
* `effectCleanup`: after `isFocused` changed, the cleanup of lines 198-201 clears the timer
  and the effect installs a handler capturing the new `isFocused`;
* `frameStep`: the frame callback writes none of these flags. -/
def applyEvent (s : ModeState) : Event → ModeState
  | Event.scroll =>
    if s.handlerFocused then s else { s with autoLadder := true, timerPending := true }
  | Event.click => { s with isFocused := true }
  | Event.keyG => { s with isFocused := true }
  | Event.keyEscape => { s with isFocused := false }
  | Event.timerExpiry =>
    if s.timerPending then { s with autoLadder := false, timerPending := false } else s
  | Event.effectCleanup =>
    if s.handlerFocused = s.isFocused then s
    else { s with handlerFocused := s.isFocused, timerPending := false }
  | Event.frameStep => s

/-- The state after a finite sequence of events. -/
def runEvents (s : ModeState) (es : List Event) : ModeState := es.foldl applyEvent s

/-- States reachable from the initial state. -/
def Reachable (s : ModeState) : Prop := ∃ es : List Event, runEvents ModeState.initial es = s

/-! ## Predicates used in the statements -/

/-- The x-overlap test shared by both queries. -/
def withinX (x x1 x2 : ℚ) : Prop := x + CHAR_W > x1 ∧ x < x2

/-- The `crossed` test of `findLandingPlatform`. -/
def crossed (prevBottom nextBottom y : ℚ) : Prop := prevBottom ≤ y ∧ nextBottom ≥ y

/-- The `withinY` test of `getLadder`. -/
def withinY (y yTop yBot : ℚ) : Prop := y ≥ yTop - 40 ∧ y ≤ yBot + 40

instance (x x1 x2 : ℚ) : Decidable (withinX x x1 x2) := by unfold withinX; infer_instance
instance (a b y : ℚ) : Decidable (crossed a b y) := by unfold crossed; infer_instance
instance (y a b : ℚ) : Decidable (withinY y a b) := by unfold withinY; infer_instance

/-- The `type === 'platform'` test. -/
def WorldObj.isPlatform : WorldObj → Bool
  | WorldObj.platform _ => true
  | WorldObj.ladder _ => false

/-- The `type === 'ladder'` test. -/
def WorldObj.isLadder : WorldObj → Bool
  | WorldObj.platform _ => false
  | WorldObj.ladder _ => true

/-- The authored platforms of all measurable floors, in floor order (no fallback ledges). -/
def authoredObjects (level : LevelConfig) (zones : List Zone) : List WorldObj :=
  zones.flatMap (fun z =>
    match z.top with
    | Option.none => []
    | some top => authoredPlatforms level z.id top)

/-- The number of measurable floors (zones whose section is mounted). -/
def measurableCount (zones : List Zone) : ℕ := (zones.filter (fun z => z.top.isSome)).length

/-- The standing line of a floor as the specification words it: top + (the yOffset of the
floor's first authored platform, or 260 if it has none) − 48. -/
def standYOf (level : LevelConfig) (id : String) (top : ℚ) : ℚ :=
  top + (match (level id).getD [] with
    | p :: _ => p.yOffset
    | [] => 260) - 48

/-- The standing lines of the measurable floors, in floor order. -/
def measurableStandYs (level : LevelConfig) (zones : List Zone) : List ℚ :=
  zones.filterMap (fun z => z.top.map (standYOf level z.id))

/-- A run of Focused frames in each of which the ladder query (at the post-clamp `x` and the
current `y`) finds a ladder and neither climb key is held. -/
def FreezeFrames (innerWidth : ℚ) (objects : List WorldObj) : Character → List Keys → Prop
  | _, [] => True
  | c, k :: ks =>
    k.ArrowUp = false ∧ k.ArrowDown = false ∧
    getLadder objects (wallClampX innerWidth k c.x) c.y ≠ none ∧
    FreezeFrames innerWidth objects (focusedStep innerWidth objects k c) ks

/-- The vertical offset that sizes a floor's standing line: the yOffset of its first authored
platform, or 260 if it has none. -/
def firstYOffset (level : LevelConfig) (id : String) : ℚ :=
  match (level id).getD [] with
  | p :: _ => p.yOffset
  | [] => 260

/-- A level in which no platform of a floor (authored, or the fallback ledge at offset 260)
lies more than the 40 px ladder tolerance above the floor's first platform. -/
def LevelOffsetsTight (level : LevelConfig) : Prop :=
  ∀ id, firstYOffset level id - 40 ≤ 260 ∧
    ∀ p ∈ (level id).getD [], firstYOffset level id - 40 ≤ p.yOffset

/-! # Theorems -/

/-! ## Collision queries: basic facts -/

theorem getLadder_platform_cons (p : Platform) (rest : List WorldObj) (x y : ℚ) :
    getLadder (WorldObj.platform p :: rest) x y = getLadder rest x y := rfl

theorem getLadder_ladder_cons (o : Ladder) (rest : List WorldObj) (x y : ℚ) :
    getLadder (WorldObj.ladder o :: rest) x y =
      if withinX x o.x1 o.x2 ∧ withinY y o.yTop o.yBot then some o else getLadder rest x y := by
  simp only [getLadder, withinX, withinY]
  by_cases h1 : x + CHAR_W > o.x1 <;> by_cases h2 : x < o.x2 <;>
    by_cases h3 : y ≥ o.yTop - 40 <;> by_cases h4 : y ≤ o.yBot + 40 <;> simp [h1, h2, h3, h4]

theorem findLandingPlatform_ladder_cons (l : Ladder) (rest : List WorldObj) (x a b : ℚ) :
    findLandingPlatform (WorldObj.ladder l :: rest) x a b = findLandingPlatform rest x a b := rfl

theorem findLandingPlatform_platform_cons (o : Platform) (rest : List WorldObj) (x a b : ℚ) :
    findLandingPlatform (WorldObj.platform o :: rest) x a b =
      if withinX x o.x1 o.x2 ∧ crossed a b o.y then some o
      else findLandingPlatform rest x a b := by
  simp only [findLandingPlatform, withinX, crossed]
  by_cases h1 : x + CHAR_W > o.x1 <;> by_cases h2 : x < o.x2 <;>
    by_cases h3 : a ≤ o.y <;> by_cases h4 : b ≥ o.y <;> simp [h1, h2, h3, h4]

/-- A ladder returned by `getLadder` is an element of the list and passes both tests. -/
theorem getLadder_some_spec {objects : List WorldObj} {x y : ℚ} {L : Ladder}
    (h : getLadder objects x y = some L) :
    WorldObj.ladder L ∈ objects ∧ withinX x L.x1 L.x2 ∧ withinY y L.yTop L.yBot := by
  induction objects with
  | nil => simp [getLadder] at h
  | cons o rest ih =>
    cases o with
    | platform p =>
      rw [getLadder_platform_cons] at h
      obtain ⟨hm, hx, hy⟩ := ih h
      exact ⟨List.mem_cons_of_mem _ hm, hx, hy⟩
    | ladder o =>
      rw [getLadder_ladder_cons] at h
      by_cases hc : withinX x o.x1 o.x2 ∧ withinY y o.yTop o.yBot
      · rw [if_pos hc] at h
        cases h
        exact ⟨List.mem_cons_self _ _, hc.1, hc.2⟩
      · rw [if_neg hc] at h
        obtain ⟨hm, hx, hy⟩ := ih h
        exact ⟨List.mem_cons_of_mem _ hm, hx, hy⟩

/-- If some ladder of the list passes both tests, `getLadder` finds a ladder. -/
theorem getLadder_isSome_of_mem {objects : List WorldObj} {x y : ℚ} {L : Ladder}
    (hm : WorldObj.ladder L ∈ objects) (hx : withinX x L.x1 L.x2)
    (hy : withinY y L.yTop L.yBot) : getLadder objects x y ≠ none := by
  induction objects with
  | nil => simp at hm
  | cons o rest ih =>
    cases o with
    | platform p =>
      rw [getLadder_platform_cons]
      rcases List.mem_cons.1 hm with h | h
      · cases h
      · exact ih h
    | ladder o =>
      rw [getLadder_ladder_cons]
      by_cases hc : withinX x o.x1 o.x2 ∧ withinY y o.yTop o.yBot
      · rw [if_pos hc]; simp
      · rw [if_neg hc]
        rcases List.mem_cons.1 hm with h | h
        · cases h
          exact absurd ⟨hx, hy⟩ hc
        · exact ih h

/-- A platform returned by `findLandingPlatform` is an element of the list and passes
both tests. -/
theorem findLandingPlatform_some_spec {objects : List WorldObj} {x a b : ℚ} {q : Platform}
    (h : findLandingPlatform objects x a b = some q) :
    WorldObj.platform q ∈ objects ∧ withinX x q.x1 q.x2 ∧ crossed a b q.y := by
  induction objects with
  | nil => simp [findLandingPlatform] at h
  | cons o rest ih =>
    cases o with
    | ladder l =>
      rw [findLandingPlatform_ladder_cons] at h
      obtain ⟨hm, hx, hy⟩ := ih h
      exact ⟨List.mem_cons_of_mem _ hm, hx, hy⟩
    | platform o =>
      rw [findLandingPlatform_platform_cons] at h
      by_cases hc : withinX x o.x1 o.x2 ∧ crossed a b o.y
      · rw [if_pos hc] at h
        cases h
        exact ⟨List.mem_cons_self _ _, hc.1, hc.2⟩
      · rw [if_neg hc] at h
        obtain ⟨hm, hx, hy⟩ := ih h
        exact ⟨List.mem_cons_of_mem _ hm, hx, hy⟩

/-- If some platform of the list passes both tests, `findLandingPlatform` finds a platform. -/
theorem findLandingPlatform_isSome_of_mem {objects : List WorldObj} {x a b : ℚ} {p : Platform}
    (hm : WorldObj.platform p ∈ objects) (hx : withinX x p.x1 p.x2)
    (hy : crossed a b p.y) : findLandingPlatform objects x a b ≠ none := by
  induction objects with
  | nil => simp at hm
  | cons o rest ih =>
    cases o with
    | ladder l =>
      rw [findLandingPlatform_ladder_cons]
      rcases List.mem_cons.1 hm with h | h
      · cases h
      · exact ih h
    | platform o =>
      rw [findLandingPlatform_platform_cons]
      by_cases hc : withinX x o.x1 o.x2 ∧ crossed a b o.y
      · rw [if_pos hc]; simp
      · rw [if_neg hc]
        rcases List.mem_cons.1 hm with h | h
        · cases h
          exact absurd ⟨hx, hy⟩ hc
        · exact ih h

/-- Objects skipped by the loop before it reaches a matching platform: if no platform of
`pre` passes both tests and `p` does, the query on `pre ++ p :: post` returns `p`. -/
theorem findLandingPlatform_append_first {pre post : List WorldObj} {x a b : ℚ} {p : Platform}
    (hpre : ∀ q, WorldObj.platform q ∈ pre → ¬ (withinX x q.x1 q.x2 ∧ crossed a b q.y))
    (hx : withinX x p.x1 p.x2) (hy : crossed a b p.y) :
    findLandingPlatform (pre ++ WorldObj.platform p :: post) x a b = some p := by
  induction pre with
  | nil =>
    rw [List.nil_append, findLandingPlatform_platform_cons, if_pos ⟨hx, hy⟩]
  | cons o rest ih =>
    have hrest : ∀ q, WorldObj.platform q ∈ rest →
        ¬ (withinX x q.x1 q.x2 ∧ crossed a b q.y) :=
      fun q hq => hpre q (List.mem_cons_of_mem _ hq)
    cases o with
    | ladder l =>
      rw [List.cons_append, findLandingPlatform_ladder_cons]
      exact ih hrest
    | platform o =>
      rw [List.cons_append, findLandingPlatform_platform_cons,
        if_neg (hpre o (List.mem_cons_self _ _))]
      exact ih hrest

/-- The platform returned by the loop is the first one in list order that passes both tests:
the list splits around it with no passing platform before it. -/
theorem findLandingPlatform_some_split {objects : List WorldObj} {x a b : ℚ} {q : Platform}
    (h : findLandingPlatform objects x a b = some q) :
    ∃ pre post, objects = pre ++ WorldObj.platform q :: post ∧
      ∀ r, WorldObj.platform r ∈ pre → ¬ (withinX x r.x1 r.x2 ∧ crossed a b r.y) := by
  induction objects with
  | nil => simp [findLandingPlatform] at h
  | cons o rest ih =>
    cases o with
    | ladder l =>
      rw [findLandingPlatform_ladder_cons] at h
      obtain ⟨pre, post, he, hpre⟩ := ih h
      refine ⟨WorldObj.ladder l :: pre, post, by rw [he, List.cons_append], ?_⟩
      intro r hr
      rcases List.mem_cons.1 hr with hr | hr
      · cases hr
      · exact hpre r hr
    | platform o =>
      rw [findLandingPlatform_platform_cons] at h
      by_cases hc : withinX x o.x1 o.x2 ∧ crossed a b o.y
      · rw [if_pos hc] at h
        cases h
        exact ⟨[], rest, rfl, fun r hr => by simp at hr⟩
      · rw [if_neg hc] at h
        obtain ⟨pre, post, he, hpre⟩ := ih h
        refine ⟨WorldObj.platform o :: pre, post, by rw [he, List.cons_append], ?_⟩
        intro r hr
        rcases List.mem_cons.1 hr with hr | hr
        · cases hr
          exact hc
        · exact hpre r hr

/-! ## Wall clamp and the branches of the Focused step -/

theorem wallClampX_ge (innerWidth : ℚ) (keys : Keys) (x : ℚ) :
    TOWER_LEFT ≤ wallClampX innerWidth keys x := by
  unfold wallClampX
  exact le_max_left _ _

theorem wallClampX_le (innerWidth : ℚ) (keys : Keys) (x : ℚ)
    (hw : TOWER_LEFT ≤ innerWidth - TOWER_RIGHT - CHAR_W) :
    wallClampX innerWidth keys x ≤ innerWidth - TOWER_RIGHT - CHAR_W := by
  unfold wallClampX
  exact max_le hw (min_le_left _ _)

theorem physicsBranch_x (objects : List WorldObj) (keys : Keys) (c : Character) (x : ℚ) :
    (physicsBranch objects keys c x).x = x := by
  unfold physicsBranch
  simp only
  split <;> rfl

theorem ladderBranch_no_climb (L : Ladder) (keys : Keys) (x y : ℚ)
    (hu : keys.ArrowUp = false) (hd : keys.ArrowDown = false) :
    ladderBranch L keys x y = ⟨x, y, 0, false⟩ := by
  simp [ladderBranch, hu, hd]

theorem ladderBranch_climb (L : Ladder) (keys : Keys) (x y : ℚ)
    (h : keys.ArrowUp = true ∨ keys.ArrowDown = true) :
    ladderBranch L keys x y =
      ⟨max L.x1 (min (L.x2 - CHAR_W) x),
       max L.yTop (min L.yBot
        ((if keys.ArrowUp then y - CLIMB_SPEED else y) +
          (if keys.ArrowDown then CLIMB_SPEED else 0))), 0, false⟩ := by
  unfold ladderBranch
  rcases h with h | h
  · cases hd : keys.ArrowDown <;> simp [h, hd]
  · cases hu : keys.ArrowUp <;> simp [h, hu]

theorem focusedStep_onLadder {innerWidth : ℚ} {objects : List WorldObj} {keys : Keys}
    {c : Character} {L : Ladder}
    (h : getLadder objects (wallClampX innerWidth keys c.x) c.y = some L) :
    focusedStep innerWidth objects keys c =
      ladderBranch L keys (wallClampX innerWidth keys c.x) c.y := by
  simp only [focusedStep, h]

theorem focusedStep_offLadder {innerWidth : ℚ} {objects : List WorldObj} {keys : Keys}
    {c : Character}
    (h : getLadder objects (wallClampX innerWidth keys c.x) c.y = none) :
    focusedStep innerWidth objects keys c =
      physicsBranch objects keys c (wallClampX innerWidth keys c.x) := by
  simp only [focusedStep, h]

theorem physicsBranch_landing {objects : List WorldObj} {keys : Keys} {c : Character} {x : ℚ}
    {p : Platform} (hv : jumpGravityVy keys c > 0)
    (hf : findLandingPlatform objects x (c.y + CHAR_H)
      (c.y + jumpGravityVy keys c + CHAR_H) = some p) :
    physicsBranch objects keys c x = ⟨x, p.y - CHAR_H, 0, true⟩ := by
  simp only [physicsBranch, if_pos hv, hf]

theorem physicsBranch_no_landing {objects : List WorldObj} {keys : Keys} {c : Character}
    {x : ℚ}
    (h : jumpGravityVy keys c ≤ 0 ∨ findLandingPlatform objects x (c.y + CHAR_H)
      (c.y + jumpGravityVy keys c + CHAR_H) = none) :
    physicsBranch objects keys c x =
      ⟨x, c.y + jumpGravityVy keys c, jumpGravityVy keys c, false⟩ := by
  unfold physicsBranch
  by_cases hv : jumpGravityVy keys c > 0
  · rcases h with h | h
    · exact absurd hv (not_lt.2 h)
    · simp only [if_pos hv, h]
  · simp only [if_neg hv]

/-! ## C1: horizontal clamp -/

/-- C1 (as stated, refuted): at viewport width 100 the wall interval `[60, 8]` is empty and
the step leaves `x = 60` outside it; at width 155 (wall interval `[60, 63]`), climbing the
ladder column `[31, 85]` re-snaps `x` from 60 to 53, left of the wall margin. -/
theorem focusedStep_x_escapes_walls :
    (focusedStep 100 [] Keys.none ⟨60, 0, 0, false⟩).x = 60 ∧
    ¬ ((focusedStep 100 [] Keys.none ⟨60, 0, 0, false⟩).x ≤ 100 - TOWER_RIGHT - CHAR_W) ∧
    TOWER_LEFT ≤ 155 - TOWER_RIGHT - CHAR_W ∧
    (focusedStep 155 [WorldObj.ladder ⟨31, 85, 212, 1192⟩] ⟨false, false, true, false, false⟩
      ⟨60, 500, 0, false⟩).x = 53 ∧
    ¬ (TOWER_LEFT ≤ (focusedStep 155 [WorldObj.ladder ⟨31, 85, 212, 1192⟩]
      ⟨false, false, true, false, false⟩ ⟨60, 500, 0, false⟩).x) := by
  norm_num [focusedStep, wallClampX, getLadder, ladderBranch, physicsBranch, jumpGravityVy,
    jumps, findLandingPlatform, Keys.none, TOWER_LEFT, TOWER_RIGHT, CHAR_W, CLIMB_SPEED,
    SPEED_X, GRAVITY]

/-- C1 (amended): when the wall interval is non-empty (`TOWER_LEFT ≤ innerWidth − TOWER_RIGHT −
CHAR_W`, i.e. `innerWidth ≥ 152`) and, in case the step climbs a ladder `L`, the column of
`L` reaches the wall interval (`TOWER_LEFT ≤ L.x2 − CHAR_W` and
`L.x1 ≤ innerWidth − TOWER_RIGHT − CHAR_W`), the persisted `x` lies within
`[TOWER_LEFT, innerWidth − TOWER_RIGHT − CHAR_W]`, for every world, character and key set. -/
theorem focusedStep_x_within_walls (innerWidth : ℚ) (objects : List WorldObj) (keys : Keys)
    (c : Character)
    (hw : TOWER_LEFT ≤ innerWidth - TOWER_RIGHT - CHAR_W)
    (hl : ∀ L, getLadder objects (wallClampX innerWidth keys c.x) c.y = some L →
      (keys.ArrowUp = true ∨ keys.ArrowDown = true) →
      TOWER_LEFT ≤ L.x2 - CHAR_W ∧ L.x1 ≤ innerWidth - TOWER_RIGHT - CHAR_W) :
    TOWER_LEFT ≤ (focusedStep innerWidth objects keys c).x ∧
    (focusedStep innerWidth objects keys c).x ≤ innerWidth - TOWER_RIGHT - CHAR_W := by
  have hge := wallClampX_ge innerWidth keys c.x
  have hle := wallClampX_le innerWidth keys c.x hw
  cases hg : getLadder objects (wallClampX innerWidth keys c.x) c.y with
  | none =>
    rw [focusedStep_offLadder hg, physicsBranch_x]
    exact ⟨hge, hle⟩
  | some L =>
    rw [focusedStep_onLadder hg]
    by_cases hk : keys.ArrowUp = true ∨ keys.ArrowDown = true
    · obtain ⟨h1, h2⟩ := hl L hg hk
      rw [ladderBranch_climb L keys _ _ hk]
      constructor
      · exact le_max_of_le_right (le_min h1 hge)
      · exact max_le h2 ((min_le_right _ _).trans hle)
    · have hu : keys.ArrowUp = false := by
        cases h : keys.ArrowUp
        · rfl
        · exact absurd (Or.inl h) hk
      have hd : keys.ArrowDown = false := by
        cases h : keys.ArrowDown
        · rfl
        · exact absurd (Or.inr h) hk
      rw [ladderBranch_no_climb L keys _ _ hu hd]
      exact ⟨hge, hle⟩

/-- C1 witness: width 1000, the ladder column `[876, 930]`, climbing up from `x = 900`. -/
theorem focusedStep_x_within_walls_witness :
    TOWER_LEFT ≤ (focusedStep 1000 [WorldObj.ladder ⟨876, 930, 212, 1192⟩]
      ⟨false, false, true, false, false⟩ ⟨900, 500, 0, false⟩).x ∧
    (focusedStep 1000 [WorldObj.ladder ⟨876, 930, 212, 1192⟩]
      ⟨false, false, true, false, false⟩ ⟨900, 500, 0, false⟩).x
        ≤ 1000 - TOWER_RIGHT - CHAR_W :=
  focusedStep_x_within_walls 1000 [WorldObj.ladder ⟨876, 930, 212, 1192⟩]
    ⟨false, false, true, false, false⟩ ⟨900, 500, 0, false⟩
    (by norm_num [TOWER_LEFT, TOWER_RIGHT, CHAR_W])
    (by
      intro L hL _
      norm_num [getLadder, wallClampX, TOWER_LEFT, TOWER_RIGHT, CHAR_W] at hL
      subst hL
      norm_num [TOWER_LEFT, TOWER_RIGHT, CHAR_W])

/-! ## C3: findLandingPlatform -/

/-- The world built for the single floor `hero` at offset 0 and viewport width 1000 with the
shipped level: the fallback ledge comes first, then the two authored platforms. -/
theorem buildObjects_hero_1000 :
    buildObjects LEVEL 1000 [⟨"hero", some 0⟩] =
      [WorldObj.platform ⟨"hero", 80, 866, 260⟩, WorldObj.platform ⟨"hero", 60, 280, 260⟩,
       WorldObj.platform ⟨"hero", 360, 540, 340⟩] := by
  norm_num [buildObjects, unsortedObjects, floorObjects, fallbackPlatforms, authoredPlatforms,
    ladderObjects, floorMeta, floorMetaOf, LEVEL, getLadderX1, LADDER_MARGIN_RIGHT, LADDER_W,
    DEFAULT_PLATFORM_Y_OFFSET, sortKey, List.insertionSort, List.orderedInsert]

/-- C3 (as stated, refuted): in the world rebuilt for floor `hero` (top 0, width 1000, shipped
level) the authored platform `p = [60, 280] @ y 260` satisfies `259 < p.y ≤ 261` and overlaps
the character at `x = 100`, yet `findLandingPlatform 100 259 261` returns the fallback ledge
`[80, 866] @ y 260`, which precedes `p` in the list, and not `p`. -/
theorem findLandingPlatform_returns_other_platform :
    WorldObj.platform ⟨"hero", 60, 280, 260⟩ ∈
      (rebuildWorld LEVEL 1000 [⟨"hero", some 0⟩] ⟨[], Character.initial⟩).objects ∧
    (259 : ℚ) < (⟨"hero", 60, 280, 260⟩ : Platform).y ∧
    (⟨"hero", 60, 280, 260⟩ : Platform).y ≤ 261 ∧
    (100 : ℚ) + CHAR_W > (⟨"hero", 60, 280, 260⟩ : Platform).x1 ∧
    (100 : ℚ) < (⟨"hero", 60, 280, 260⟩ : Platform).x2 ∧
    findLandingPlatform
      (rebuildWorld LEVEL 1000 [⟨"hero", some 0⟩] ⟨[], Character.initial⟩).objects 100 259 261
      = some ⟨"hero", 80, 866, 260⟩ ∧
    findLandingPlatform
      (rebuildWorld LEVEL 1000 [⟨"hero", some 0⟩] ⟨[], Character.initial⟩).objects 100 259 261
      ≠ some ⟨"hero", 60, 280, 260⟩ := by
  simp only [rebuildWorld, buildObjects_hero_1000]
  norm_num [findLandingPlatform, CHAR_W]

/-- C3 (amended): for every object list, `x`, `prevBottom`, `nextBottom` and every platform
`p` of the list with `prevBottom < p.y ≤ nextBottom` and horizontal overlap,
`findLandingPlatform` does not return none: it returns a platform `q` of the list that
overlaps horizontally and has `prevBottom ≤ q.y ≤ nextBottom`, namely the first such platform
in list order (the list splits as `pre ++ q :: post` with no platform of `pre` passing the two
tests); and it returns `p` itself whenever no platform placed before `p` in the list passes
those two tests. -/
theorem findLandingPlatform_finds_first (objects : List WorldObj) (x prevBottom nextBottom : ℚ)
    (p : Platform) (hm : WorldObj.platform p ∈ objects)
    (hlo : prevBottom < p.y) (hhi : p.y ≤ nextBottom)
    (hx1 : x + CHAR_W > p.x1) (hx2 : x < p.x2) :
    (∃ q, findLandingPlatform objects x prevBottom nextBottom = some q ∧
      WorldObj.platform q ∈ objects ∧ x + CHAR_W > q.x1 ∧ x < q.x2 ∧
      prevBottom ≤ q.y ∧ q.y ≤ nextBottom ∧
      ∃ pre post, objects = pre ++ WorldObj.platform q :: post ∧
        ∀ r, WorldObj.platform r ∈ pre →
          ¬ ((x + CHAR_W > r.x1 ∧ x < r.x2) ∧ (prevBottom ≤ r.y ∧ nextBottom ≥ r.y))) ∧
    (∀ pre post, objects = pre ++ WorldObj.platform p :: post →
      (∀ q, WorldObj.platform q ∈ pre →
        ¬ ((x + CHAR_W > q.x1 ∧ x < q.x2) ∧ (prevBottom ≤ q.y ∧ nextBottom ≥ q.y))) →
      findLandingPlatform objects x prevBottom nextBottom = some p) := by
  constructor
  · cases hf : findLandingPlatform objects x prevBottom nextBottom with
    | none =>
      exact absurd hf (findLandingPlatform_isSome_of_mem hm ⟨hx1, hx2⟩ ⟨le_of_lt hlo, hhi⟩)
    | some q =>
      obtain ⟨hq, hqx, hqy⟩ := findLandingPlatform_some_spec hf
      exact ⟨q, rfl, hq, hqx.1, hqx.2, hqy.1, hqy.2, findLandingPlatform_some_split hf⟩
  · intro pre post he hpre
    subst he
    exact findLandingPlatform_append_first hpre ⟨hx1, hx2⟩ ⟨le_of_lt hlo, hhi⟩

/-- C3 witness: the lone platform `[60, 280] @ y 260`, character at `x = 100`, bottom edge
moving from 259 to 261. -/
theorem findLandingPlatform_finds_first_witness :
    (∃ q, findLandingPlatform [WorldObj.platform ⟨"hero", 60, 280, 260⟩] 100 259 261 = some q ∧
      WorldObj.platform q ∈ [WorldObj.platform ⟨"hero", 60, 280, 260⟩] ∧
      (100 : ℚ) + CHAR_W > q.x1 ∧ 100 < q.x2 ∧ 259 ≤ q.y ∧ q.y ≤ 261 ∧
      ∃ pre post, [WorldObj.platform ⟨"hero", 60, 280, 260⟩]
          = pre ++ WorldObj.platform q :: post ∧
        ∀ r, WorldObj.platform r ∈ pre →
          ¬ (((100 : ℚ) + CHAR_W > r.x1 ∧ 100 < r.x2) ∧ ((259 : ℚ) ≤ r.y ∧ (261 : ℚ) ≥ r.y))) ∧
    (∀ pre post, [WorldObj.platform ⟨"hero", 60, 280, 260⟩]
        = pre ++ WorldObj.platform ⟨"hero", 60, 280, 260⟩ :: post →
      (∀ q, WorldObj.platform q ∈ pre →
        ¬ (((100 : ℚ) + CHAR_W > q.x1 ∧ 100 < q.x2) ∧ ((259 : ℚ) ≤ q.y ∧ (261 : ℚ) ≥ q.y))) →
      findLandingPlatform [WorldObj.platform ⟨"hero", 60, 280, 260⟩] 100 259 261
        = some ⟨"hero", 60, 280, 260⟩) :=
  findLandingPlatform_finds_first [WorldObj.platform ⟨"hero", 60, 280, 260⟩] 100 259 261
    ⟨"hero", 60, 280, 260⟩ (List.mem_cons_self _ _) (by norm_num) (by norm_num)
    (by norm_num [CHAR_W]) (by norm_num)

/-! ## C4: getLadder -/

/-- C4: for every object list and every `x`, `y`: a ladder `L` returned by `getLadder` is a
ladder object of the list (never a platform), the character's x-extent intersects its
x-interval (`x + CHAR_W > L.x1`, `x < L.x2`) and `L.yTop − 40 ≤ y ≤ L.yBot + 40`; conversely,
if the list contains a ladder satisfying both conditions, `getLadder` does not return none. -/
theorem getLadder_characterisation (objects : List WorldObj) (x y : ℚ) :
    (∀ L, getLadder objects x y = some L →
      WorldObj.ladder L ∈ objects ∧ x + CHAR_W > L.x1 ∧ x < L.x2 ∧
      L.yTop - 40 ≤ y ∧ y ≤ L.yBot + 40) ∧
    (∀ L, WorldObj.ladder L ∈ objects → x + CHAR_W > L.x1 → x < L.x2 →
      L.yTop - 40 ≤ y → y ≤ L.yBot + 40 → getLadder objects x y ≠ none) := by
  constructor
  · intro L h
    obtain ⟨hm, hx, hy⟩ := getLadder_some_spec h
    exact ⟨hm, hx.1, hx.2, hy.1, hy.2⟩
  · intro L hm h1 h2 h3 h4
    exact getLadder_isSome_of_mem hm ⟨h1, h2⟩ ⟨h3, h4⟩

/-- C4 witness: the ladder `[876, 930] × [212, 1192]` behind a platform, queried at
`(900, 180)` inside the 40 px band above its top. -/
theorem getLadder_characterisation_witness :
    (∀ L, getLadder [WorldObj.platform ⟨"hero", 60, 280, 260⟩,
        WorldObj.ladder ⟨876, 930, 212, 1192⟩] 900 180 = some L →
      WorldObj.ladder L ∈ [WorldObj.platform ⟨"hero", 60, 280, 260⟩,
        WorldObj.ladder ⟨876, 930, 212, 1192⟩] ∧
      (900 : ℚ) + CHAR_W > L.x1 ∧ 900 < L.x2 ∧ L.yTop - 40 ≤ 180 ∧ 180 ≤ L.yBot + 40) ∧
    getLadder [WorldObj.platform ⟨"hero", 60, 280, 260⟩,
        WorldObj.ladder ⟨876, 930, 212, 1192⟩] 900 180 ≠ none :=
  ⟨(getLadder_characterisation _ 900 180).1,
   (getLadder_characterisation _ 900 180).2 ⟨876, 930, 212, 1192⟩
    (List.mem_cons_of_mem _ (List.mem_cons_self _ _))
    (by norm_num [CHAR_W]) (by norm_num) (by norm_num) (by norm_num)⟩

/-! ## C5: landing round trip -/

/-- C5: in a Focused step whose ladder query (at the wall-clamped `x` and current `y`) finds
no ladder, with `vy` the velocity after the jump/gravity update: if `vy > 0` and
`findLandingPlatform` returns `p`, the step ends with `y = p.y − CHAR_H`, velocity 0 and
on-ground true; in every other case (`vy ≤ 0`, or no platform found) it ends with
`y = y_old + vy`, velocity `vy` and on-ground false. -/
theorem focusedStep_landing_round_trip (innerWidth : ℚ) (objects : List WorldObj) (keys : Keys)
    (c : Character)
    (hoff : getLadder objects (wallClampX innerWidth keys c.x) c.y = none) :
    (∀ p, jumpGravityVy keys c > 0 →
      findLandingPlatform objects (wallClampX innerWidth keys c.x) (c.y + CHAR_H)
        (c.y + jumpGravityVy keys c + CHAR_H) = some p →
      focusedStep innerWidth objects keys c =
        ⟨wallClampX innerWidth keys c.x, p.y - CHAR_H, 0, true⟩) ∧
    ((jumpGravityVy keys c ≤ 0 ∨
      findLandingPlatform objects (wallClampX innerWidth keys c.x) (c.y + CHAR_H)
        (c.y + jumpGravityVy keys c + CHAR_H) = none) →
      focusedStep innerWidth objects keys c =
        ⟨wallClampX innerWidth keys c.x, c.y + jumpGravityVy keys c,
          jumpGravityVy keys c, false⟩) := by
  rw [focusedStep_offLadder hoff]
  exact ⟨fun p hv hf => physicsBranch_landing hv hf, fun h => physicsBranch_no_landing h⟩

/-- C5 witness: a character falling at `vy = 5` from `y = 210` above the platform
`[60, 280] @ y 260` lands at `y = 212`; moving upward at `vy = −5` it does not. -/
theorem focusedStep_landing_round_trip_witness :
    focusedStep 1000 [WorldObj.platform ⟨"hero", 60, 280, 260⟩] Keys.none ⟨100, 210, 5, false⟩
      = ⟨100, 212, 0, true⟩ ∧
    focusedStep 1000 [WorldObj.platform ⟨"hero", 60, 280, 260⟩] Keys.none ⟨100, 210, -5, false⟩
      = ⟨100, 210 + (-5 + 9 / 10), -5 + 9 / 10, false⟩ := by
  have hw : wallClampX 1000 Keys.none 100 = 100 := by
    norm_num [wallClampX, Keys.none, TOWER_LEFT, TOWER_RIGHT, CHAR_W]
  have h1 := (focusedStep_landing_round_trip 1000 [WorldObj.platform ⟨"hero", 60, 280, 260⟩]
    Keys.none ⟨100, 210, 5, false⟩ rfl).1 ⟨"hero", 60, 280, 260⟩
    (by norm_num [jumpGravityVy, jumps, Keys.none, GRAVITY])
    (by norm_num [findLandingPlatform, wallClampX, jumpGravityVy, jumps, Keys.none, GRAVITY,
      TOWER_LEFT, TOWER_RIGHT, CHAR_W, CHAR_H])
  have h2 := (focusedStep_landing_round_trip 1000 [WorldObj.platform ⟨"hero", 60, 280, 260⟩]
    Keys.none ⟨100, 210, -5, false⟩ rfl).2
    (Or.inl (by norm_num [jumpGravityVy, jumps, Keys.none, GRAVITY]))
  constructor
  · rw [h1]
    norm_num [wallClampX, Keys.none, TOWER_LEFT, TOWER_RIGHT, CHAR_W, CHAR_H]
  · rw [h2]
    norm_num [wallClampX, jumpGravityVy, jumps, Keys.none, GRAVITY, TOWER_LEFT, TOWER_RIGHT,
      CHAR_W]

/-! ## C2: mode exclusivity -/

/-- C2 (as stated, refuted): from the initial state, a scroll in Browse mode followed by a
click on the character (and the effect cleanup that the mode change triggers) reaches a state
that is Focused with `autoLadderRef` still true and no timer left to reset it. -/
theorem autoLadder_true_while_focused :
    runEvents ModeState.initial [Event.scroll, Event.click, Event.effectCleanup]
      = ⟨true, true, true, false⟩ ∧
    ¬ (∀ s, Reachable s → ¬ (s.autoLadder = true ∧ s.isFocused = true)) := by
  have h : runEvents ModeState.initial [Event.scroll, Event.click, Event.effectCleanup]
      = ⟨true, true, true, false⟩ := by decide
  refine ⟨h, fun hall => ?_⟩
  exact hall ⟨true, true, true, false⟩ ⟨_, h⟩ ⟨rfl, rfl⟩

/-- C2 (amended): `autoLadderRef` may still be true on entering Focused mode, but it is
ignored there and never raised there: a Focused frame yields the same result whatever
`autoLadderRef` holds, and the only event that turns `autoLadderRef` from false to true is a
scroll handled by an `onScroll` closure that captured Browse mode. -/
theorem autoLadder_ignored_while_focused :
    (∀ (vp : Viewport) (scrollYAfter : ℚ → ℚ) (objects : List WorldObj) (keys : Keys)
      (a b : Bool) (c : Character),
      frame vp scrollYAfter objects keys true a c = frame vp scrollYAfter objects keys true b c) ∧
    (∀ (s : ModeState) (e : Event), s.autoLadder = false → (applyEvent s e).autoLadder = true →
      e = Event.scroll ∧ s.handlerFocused = false) := by
  constructor
  · intro vp sa objects keys a b c
    simp [frame]
  · intro s e h0 h1
    cases e with
    | scroll =>
      refine ⟨rfl, ?_⟩
      cases hh : s.handlerFocused
      · rfl
      · simp [applyEvent, hh, h0] at h1
    | click => simp [applyEvent, h0] at h1
    | keyG => simp [applyEvent, h0] at h1
    | keyEscape => simp [applyEvent, h0] at h1
    | timerExpiry =>
      cases ht : s.timerPending <;> simp [applyEvent, ht, h0] at h1
    | effectCleanup =>
      by_cases hc : s.handlerFocused = s.isFocused <;> simp [applyEvent, hc, h0] at h1
    | frameStep => simp [applyEvent, h0] at h1

/-- C2 witness: the first scroll after mount is the event that raises `autoLadderRef`. -/
theorem autoLadder_ignored_while_focused_witness :
    Event.scroll = Event.scroll ∧ ModeState.initial.handlerFocused = false :=
  autoLadder_ignored_while_focused.2 ModeState.initial Event.scroll rfl rfl

/-! ## C6: rebuildWorld idempotence -/

theorem spawn_idem (innerWidth : ℚ) (objects : List WorldObj) (c : Character) :
    spawn innerWidth objects (spawn innerWidth objects c) = spawn innerWidth objects c := by
  unfold spawn
  cases hf : firstPlatform objects with
  | none => rfl
  | some p =>
    by_cases hy : c.y = 0
    · simp only [if_pos hy]
      split <;> rfl
    · simp only [if_neg hy]

/-- C6: for every level config, viewport width, zone list and prior state, calling
`rebuildWorld` twice in a row with the same inputs yields the same object list and the same
character state as calling it once. -/
theorem rebuildWorld_idempotent (level : LevelConfig) (innerWidth : ℚ) (zones : List Zone)
    (w : World) :
    rebuildWorld level innerWidth zones (rebuildWorld level innerWidth zones w)
      = rebuildWorld level innerWidth zones w := by
  simp only [rebuildWorld, spawn_idem]

/-! ## The object list built by rebuildWorld -/

theorem buildObjects_perm (level : LevelConfig) (innerWidth : ℚ) (zones : List Zone) :
    (buildObjects level innerWidth zones).Perm (unsortedObjects level innerWidth zones) :=
  List.perm_insertionSort _ _

theorem mem_buildObjects {level : LevelConfig} {innerWidth : ℚ} {zones : List Zone}
    {o : WorldObj} :
    o ∈ buildObjects level innerWidth zones ↔
      (∃ z ∈ zones, o ∈ floorObjects level innerWidth z) ∨
      o ∈ ladderObjects level innerWidth zones := by
  rw [(buildObjects_perm level innerWidth zones).mem_iff, unsortedObjects, List.mem_append,
    List.mem_flatMap]

theorem buildObjects_sorted (level : LevelConfig) (innerWidth : ℚ) (zones : List Zone) :
    (buildObjects level innerWidth zones).Sorted (fun a b => sortKey a ≤ sortKey b) := by
  haveI : IsTotal WorldObj (fun a b => sortKey a ≤ sortKey b) :=
    ⟨fun a b => le_total (sortKey a) (sortKey b)⟩
  haveI : IsTrans WorldObj (fun a b => sortKey a ≤ sortKey b) :=
    ⟨fun _ _ _ h1 h2 => le_trans h1 h2⟩
  exact List.sorted_insertionSort _ _

theorem floorObjects_isPlatform {level : LevelConfig} {innerWidth : ℚ} {z : Zone}
    {o : WorldObj} (h : o ∈ floorObjects level innerWidth z) : o.isPlatform = true := by
  unfold floorObjects at h
  cases ht : z.top with
  | none => simp [ht] at h
  | some top =>
    simp only [ht, List.mem_append] at h
    rcases h with h | h
    · unfold fallbackPlatforms at h
      simp only at h
      split at h
      · rw [List.mem_singleton] at h
        subst h
        rfl
      · simp at h
    · unfold authoredPlatforms at h
      obtain ⟨p, _, rfl⟩ := List.mem_map.1 h
      rfl

theorem ladderObjects_isLadder {level : LevelConfig} {innerWidth : ℚ} {zones : List Zone}
    {o : WorldObj} (h : o ∈ ladderObjects level innerWidth zones) : o.isLadder = true := by
  unfold ladderObjects at h
  simp only at h
  split at h
  · rw [List.mem_singleton] at h
    subst h
    rfl
  · simp at h

theorem ladderObjects_x {level : LevelConfig} {innerWidth : ℚ} {zones : List Zone}
    {L : Ladder} (h : WorldObj.ladder L ∈ ladderObjects level innerWidth zones) :
    L.x1 = getLadderX1 innerWidth ∧ L.x2 = getLadderX2 innerWidth := by
  unfold ladderObjects at h
  simp only at h
  split at h
  · rw [List.mem_singleton] at h
    cases h
    exact ⟨rfl, rfl⟩
  · simp at h

/-- Every ladder of the built world stands in the global ladder column. -/
theorem buildObjects_ladder_x {level : LevelConfig} {innerWidth : ℚ} {zones : List Zone}
    {L : Ladder} (h : WorldObj.ladder L ∈ buildObjects level innerWidth zones) :
    L.x1 = getLadderX1 innerWidth ∧ L.x2 = getLadderX2 innerWidth := by
  rcases mem_buildObjects.1 h with ⟨z, _, hz⟩ | hl
  · have := floorObjects_isPlatform hz
    simp [WorldObj.isPlatform] at this
  · exact ladderObjects_x hl

theorem filter_isPlatform_floorObjects (level : LevelConfig) (innerWidth : ℚ)
    (zones : List Zone) :
    (zones.flatMap (floorObjects level innerWidth)).filter WorldObj.isPlatform
      = zones.flatMap (floorObjects level innerWidth) :=
  List.filter_eq_self.2 (fun _ ho =>
    let ⟨_, _, hz⟩ := List.mem_flatMap.1 ho
    floorObjects_isPlatform hz)

theorem filter_isPlatform_ladderObjects (level : LevelConfig) (innerWidth : ℚ)
    (zones : List Zone) :
    (ladderObjects level innerWidth zones).filter WorldObj.isPlatform = [] :=
  List.filter_eq_nil_iff.2 (fun o ho => by
    have := ladderObjects_isLadder ho
    cases o <;> simp_all [WorldObj.isLadder, WorldObj.isPlatform])

theorem filter_isLadder_floorObjects (level : LevelConfig) (innerWidth : ℚ)
    (zones : List Zone) :
    (zones.flatMap (floorObjects level innerWidth)).filter WorldObj.isLadder = [] :=
  List.filter_eq_nil_iff.2 (fun o ho => by
    obtain ⟨_, _, hz⟩ := List.mem_flatMap.1 ho
    have := floorObjects_isPlatform hz
    cases o <;> simp_all [WorldObj.isLadder, WorldObj.isPlatform])

theorem filter_isLadder_ladderObjects (level : LevelConfig) (innerWidth : ℚ)
    (zones : List Zone) :
    (ladderObjects level innerWidth zones).filter WorldObj.isLadder
      = ladderObjects level innerWidth zones :=
  List.filter_eq_self.2 (fun _ ho => ladderObjects_isLadder ho)

/-- The platforms of the built world are, up to order, the per-floor platforms. -/
theorem buildObjects_platforms_perm (level : LevelConfig) (innerWidth : ℚ) (zones : List Zone) :
    ((buildObjects level innerWidth zones).filter WorldObj.isPlatform).Perm
      (zones.flatMap (floorObjects level innerWidth)) := by
  have h := (buildObjects_perm level innerWidth zones).filter WorldObj.isPlatform
  rw [unsortedObjects, List.filter_append, filter_isPlatform_floorObjects,
    filter_isPlatform_ladderObjects, List.append_nil] at h
  exact h

/-- The ladders of the built world are exactly the list `ladderObjects`. -/
theorem buildObjects_ladders_eq (level : LevelConfig) (innerWidth : ℚ) (zones : List Zone) :
    (buildObjects level innerWidth zones).filter WorldObj.isLadder
      = ladderObjects level innerWidth zones := by
  have h := (buildObjects_perm level innerWidth zones).filter WorldObj.isLadder
  rw [unsortedObjects, List.filter_append, filter_isLadder_floorObjects,
    filter_isLadder_ladderObjects, List.nil_append] at h
  unfold ladderObjects at h ⊢
  simp only at h ⊢
  by_cases hc : (floorMeta level zones).length ≥ 2
  · rw [if_pos hc] at h ⊢
    exact List.perm_singleton.1 h
  · rw [if_neg hc] at h ⊢
    exact List.perm_nil.1 h

/-! ## C7: fallback platform -/

theorem getLadderX1_eq (innerWidth : ℚ) : getLadderX1 innerWidth = max 0 (innerWidth - 124) := by
  unfold getLadderX1 LADDER_MARGIN_RIGHT LADDER_W
  congr 1
  ring

theorem fallbackPlatforms_wide {innerWidth : ℚ} (h : 80 < getLadderX1 innerWidth - 10)
    (id : String) (top : ℚ) :
    fallbackPlatforms innerWidth id top =
      [WorldObj.platform ⟨id, 80, getLadderX1 innerWidth - 10, top + 260⟩] := by
  have h2 : getLadderX1 innerWidth - 10 > 80 := h
  simp only [fallbackPlatforms, if_pos h2, DEFAULT_PLATFORM_Y_OFFSET]

theorem fallbackPlatforms_narrow {innerWidth : ℚ} (h : getLadderX1 innerWidth - 10 ≤ 80)
    (id : String) (top : ℚ) : fallbackPlatforms innerWidth id top = [] := by
  have h2 : ¬ (getLadderX1 innerWidth - 10 > 80) := not_lt.2 h
  simp only [fallbackPlatforms, if_neg h2]

theorem flatMap_floorObjects_narrow (level : LevelConfig) {innerWidth : ℚ}
    (h : getLadderX1 innerWidth - 10 ≤ 80) (zones : List Zone) :
    zones.flatMap (floorObjects level innerWidth) = authoredObjects level zones := by
  unfold authoredObjects
  induction zones with
  | nil => rfl
  | cons z rest ih =>
    rw [List.flatMap_cons, List.flatMap_cons, ih]
    congr 1
    unfold floorObjects
    cases z.top with
    | none => rfl
    | some top => simp only [fallbackPlatforms_narrow h, List.nil_append]

/-- C7: with `ladderX1 = getLadderX1 innerWidth = max(0, innerWidth − 124)`: when
`ladderX1 − 10 > 80`, for every floor with a resolvable top the world built by `rebuildWorld`
contains the fallback platform `x1 = 80, x2 = ladderX1 − 10, y = top + 260`, whose interval is
non-empty and whose right end lies strictly left of the ladder column (and of the left edge of
every ladder in the world); when `ladderX1 − 10 ≤ 80`, the platforms of the world are exactly
the authored platforms (no fallback for any floor). -/
theorem rebuildWorld_fallback_platform (level : LevelConfig) (innerWidth : ℚ)
    (zones : List Zone) (w : World) :
    getLadderX1 innerWidth = max 0 (innerWidth - 124) ∧
    (80 < getLadderX1 innerWidth - 10 →
      ∀ z ∈ zones, ∀ top, z.top = some top →
        WorldObj.platform ⟨z.id, 80, getLadderX1 innerWidth - 10, top + 260⟩ ∈
          (rebuildWorld level innerWidth zones w).objects ∧
        (80 : ℚ) < getLadderX1 innerWidth - 10 ∧
        getLadderX1 innerWidth - 10 < getLadderX1 innerWidth ∧
        ∀ L, WorldObj.ladder L ∈ (rebuildWorld level innerWidth zones w).objects →
          getLadderX1 innerWidth - 10 < L.x1) ∧
    (getLadderX1 innerWidth - 10 ≤ 80 →
      ((rebuildWorld level innerWidth zones w).objects.filter WorldObj.isPlatform).Perm
        (authoredObjects level zones)) := by
  refine ⟨getLadderX1_eq innerWidth, ?_, ?_⟩
  · intro hwide z hz top htop
    refine ⟨?_, hwide, by linarith, ?_⟩
    · refine mem_buildObjects.2 (Or.inl ⟨z, hz, ?_⟩)
      unfold floorObjects
      simp only [htop, fallbackPlatforms_wide hwide]
      exact List.mem_append_left _ (List.mem_singleton_self _)
    · intro L hL
      rw [(buildObjects_ladder_x hL).1]
      linarith
  · intro hnarrow
    have h := buildObjects_platforms_perm level innerWidth zones
    rw [flatMap_floorObjects_narrow level hnarrow] at h
    exact h

/-- C7 witness: floors hero (top 0) and about (top 1000) with the shipped level, at width
1000 (fallback `[80, 866]`) and at width 200 (no fallback). -/
theorem rebuildWorld_fallback_platform_witness :
    (WorldObj.platform ⟨"about", 80, getLadderX1 1000 - 10, 1000 + 260⟩ ∈
        (rebuildWorld LEVEL 1000 [⟨"hero", some 0⟩, ⟨"about", some 1000⟩]
          ⟨[], Character.initial⟩).objects ∧
      (80 : ℚ) < getLadderX1 1000 - 10 ∧
      getLadderX1 1000 - 10 < getLadderX1 1000 ∧
      ∀ L, WorldObj.ladder L ∈ (rebuildWorld LEVEL 1000
          [⟨"hero", some 0⟩, ⟨"about", some 1000⟩] ⟨[], Character.initial⟩).objects →
        getLadderX1 1000 - 10 < L.x1) ∧
    ((rebuildWorld LEVEL 200 [⟨"hero", some 0⟩, ⟨"about", some 1000⟩]
        ⟨[], Character.initial⟩).objects.filter WorldObj.isPlatform).Perm
      (authoredObjects LEVEL [⟨"hero", some 0⟩, ⟨"about", some 1000⟩]) :=
  ⟨(rebuildWorld_fallback_platform LEVEL 1000 [⟨"hero", some 0⟩, ⟨"about", some 1000⟩]
      ⟨[], Character.initial⟩).2.1
      (by norm_num [getLadderX1, LADDER_MARGIN_RIGHT, LADDER_W])
      ⟨"about", some 1000⟩ (List.mem_cons_of_mem _ (List.mem_cons_self _ _)) 1000 rfl,
   (rebuildWorld_fallback_platform LEVEL 200 [⟨"hero", some 0⟩, ⟨"about", some 1000⟩]
      ⟨[], Character.initial⟩).2.2
      (by norm_num [getLadderX1, LADDER_MARGIN_RIGHT, LADDER_W])⟩

/-- The column of the ladder that `rebuildWorld` builds reaches the wall interval as soon as
the viewport is at least 162 wide. -/
theorem buildObjects_ladder_reaches_walls {level : LevelConfig} {innerWidth : ℚ}
    {zones : List Zone} {L : Ladder} (hw : 162 ≤ innerWidth)
    (h : WorldObj.ladder L ∈ buildObjects level innerWidth zones) :
    TOWER_LEFT ≤ L.x2 - CHAR_W ∧ L.x1 ≤ innerWidth - TOWER_RIGHT - CHAR_W := by
  obtain ⟨h1, h2⟩ := buildObjects_ladder_x h
  rw [h1, h2, getLadderX2, getLadderX1_eq, TOWER_LEFT, TOWER_RIGHT, CHAR_W, LADDER_W]
  constructor
  · have := le_max_right (0 : ℚ) (innerWidth - 124)
    linarith
  · exact max_le (by linarith) (by linarith)

/-! ## C8: ladder construction -/

theorem foldl_min_spec (t : List ℚ) (a : ℚ) :
    t.foldl min a ∈ a :: t ∧ ∀ x ∈ a :: t, t.foldl min a ≤ x := by
  induction t generalizing a with
  | nil => simp
  | cons b t ih =>
    obtain ⟨hm, hle⟩ := ih (min a b)
    rw [List.foldl_cons]
    constructor
    · rcases List.mem_cons.1 hm with h | h
      · rw [h]
        rcases min_choice a b with h2 | h2 <;> rw [h2] <;> simp
      · exact List.mem_cons_of_mem _ (List.mem_cons_of_mem _ h)
    · intro x hx
      have hmin : t.foldl min (min a b) ≤ min a b := hle _ (List.mem_cons_self _ _)
      rcases List.mem_cons.1 hx with h | h
      · rw [h]; exact hmin.trans (min_le_left _ _)
      · rcases List.mem_cons.1 h with h | h
        · rw [h]; exact hmin.trans (min_le_right _ _)
        · exact hle x (List.mem_cons_of_mem _ h)

theorem foldl_max_spec (t : List ℚ) (a : ℚ) :
    t.foldl max a ∈ a :: t ∧ ∀ x ∈ a :: t, x ≤ t.foldl max a := by
  induction t generalizing a with
  | nil => simp
  | cons b t ih =>
    obtain ⟨hm, hle⟩ := ih (max a b)
    rw [List.foldl_cons]
    constructor
    · rcases List.mem_cons.1 hm with h | h
      · rw [h]
        rcases max_choice a b with h2 | h2 <;> rw [h2] <;> simp
      · exact List.mem_cons_of_mem _ (List.mem_cons_of_mem _ h)
    · intro x hx
      have hmax : max a b ≤ t.foldl max (max a b) := hle _ (List.mem_cons_self _ _)
      rcases List.mem_cons.1 hx with h | h
      · rw [h]; exact (le_max_left _ _).trans hmax
      · rcases List.mem_cons.1 h with h | h
        · rw [h]; exact (le_max_right _ _).trans hmax
        · exact hle x (List.mem_cons_of_mem _ h)

theorem mathMin_spec {l : List ℚ} (h : l ≠ []) : mathMin l ∈ l ∧ ∀ x ∈ l, mathMin l ≤ x := by
  cases l with
  | nil => exact absurd rfl h
  | cons a t => exact foldl_min_spec t a

theorem mathMax_spec {l : List ℚ} (h : l ≠ []) : mathMax l ∈ l ∧ ∀ x ∈ l, x ≤ mathMax l := by
  cases l with
  | nil => exact absurd rfl h
  | cons a t => exact foldl_max_spec t a

theorem floorMetaOf_standY (level : LevelConfig) (z : Zone) :
    (floorMetaOf level z).map (fun f => f.standY) = z.top.map (standYOf level z.id) := by
  unfold floorMetaOf standYOf
  cases z.top with
  | none => rfl
  | some top =>
    cases h : (level z.id).getD [] <;>
      simp [h, DEFAULT_PLATFORM_Y_OFFSET, CHAR_H]

theorem filterMap_floorMetaOf_standY (level : LevelConfig) (zones : List Zone) :
    (zones.filterMap (floorMetaOf level)).map (fun f => f.standY)
      = measurableStandYs level zones := by
  unfold measurableStandYs
  induction zones with
  | nil => rfl
  | cons z rest ih =>
    have hz := floorMetaOf_standY level z
    cases hf : floorMetaOf level z with
    | none =>
      rw [hf] at hz
      simp only [List.filterMap_cons, hf, ← hz, Option.map_none', ih]
    | some f =>
      rw [hf] at hz
      simp only [List.filterMap_cons, hf, ← hz, Option.map_some', List.map_cons, ih]

theorem floorMeta_standY_perm (level : LevelConfig) (zones : List Zone) :
    ((floorMeta level zones).map (fun f => f.standY)).Perm (measurableStandYs level zones) := by
  rw [← filterMap_floorMetaOf_standY]
  exact (List.perm_insertionSort _ _).map _

theorem floorMeta_length (level : LevelConfig) (zones : List Zone) :
    (floorMeta level zones).length = measurableCount zones := by
  unfold floorMeta measurableCount
  rw [(List.perm_insertionSort _ _).length_eq]
  induction zones with
  | nil => rfl
  | cons z rest ih =>
    cases ht : z.top with
    | none =>
      have hf : floorMetaOf level z = none := by simp [floorMetaOf, ht]
      rw [List.filterMap_cons_none hf, List.filter_cons_of_neg (by simp [ht]), ih]
    | some top =>
      have hf : floorMetaOf level z = some ⟨z.id, top,
          top + (match ((level z.id).getD []).head? with
            | some p => p.yOffset
            | Option.none => DEFAULT_PLATFORM_Y_OFFSET) - CHAR_H⟩ := by
        simp [floorMetaOf, ht]
      rw [List.filterMap_cons_some hf, List.filter_cons_of_pos (by simp [ht]),
        List.length_cons, List.length_cons, ih]

theorem ladderObjects_none {level : LevelConfig} {innerWidth : ℚ} {zones : List Zone}
    (h : measurableCount zones < 2) : ladderObjects level innerWidth zones = [] := by
  unfold ladderObjects
  simp only
  rw [if_neg]
  rw [floorMeta_length]
  exact not_le.2 h

theorem ladderObjects_some {level : LevelConfig} {innerWidth : ℚ} {zones : List Zone}
    (h : 2 ≤ measurableCount zones) :
    ladderObjects level innerWidth zones =
      [WorldObj.ladder ⟨getLadderX1 innerWidth, getLadderX2 innerWidth,
        mathMin ((floorMeta level zones).map (fun f => f.standY)),
        mathMax ((floorMeta level zones).map (fun f => f.standY))⟩] := by
  unfold ladderObjects
  simp only
  rw [if_pos]
  rw [floorMeta_length]
  exact h

/-- C8: `rebuildWorld` emits no ladder when fewer than two floors are measurable and exactly
one when two or more are; that ladder has `x1 = max(0, innerWidth − 124)`, `x2 = x1 + 54`,
`yTop` the minimum and `yBot` the maximum over the measurable floors of
`standY = top + (yOffset of the first authored platform, or 260) − 48`, hence `yTop ≤ yBot`
and `x1 ≥ 0`.  Scenario A: floors hero (top 0) and about (top 1000) with the shipped level give
the ladder `yTop = 212`, `yBot = 1192` and a hero platform at `y = 260` spanning `[60, 280]`. -/
theorem rebuildWorld_ladder (level : LevelConfig) (innerWidth : ℚ) (zones : List Zone)
    (w : World) :
    (measurableCount zones < 2 →
      ∀ L, WorldObj.ladder L ∉ (rebuildWorld level innerWidth zones w).objects) ∧
    (2 ≤ measurableCount zones →
      ∃ L, (rebuildWorld level innerWidth zones w).objects.filter WorldObj.isLadder
          = [WorldObj.ladder L] ∧
        L.x1 = max 0 (innerWidth - 124) ∧ L.x2 = L.x1 + 54 ∧
        L.yTop ∈ measurableStandYs level zones ∧
        (∀ s ∈ measurableStandYs level zones, L.yTop ≤ s) ∧
        L.yBot ∈ measurableStandYs level zones ∧
        (∀ s ∈ measurableStandYs level zones, s ≤ L.yBot) ∧
        L.yTop ≤ L.yBot ∧ 0 ≤ L.x1) ∧
    ((rebuildWorld LEVEL innerWidth [⟨"hero", some 0⟩, ⟨"about", some 1000⟩] w).objects.filter
        WorldObj.isLadder
        = [WorldObj.ladder ⟨max 0 (innerWidth - 124), max 0 (innerWidth - 124) + 54, 212, 1192⟩] ∧
      WorldObj.platform ⟨"hero", 60, 280, 260⟩ ∈
        (rebuildWorld LEVEL innerWidth [⟨"hero", some 0⟩, ⟨"about", some 1000⟩] w).objects) := by
  refine ⟨?_, ?_, ?_, ?_⟩
  · intro hlt L hL
    have hmem : WorldObj.ladder L ∈
        (buildObjects level innerWidth zones).filter WorldObj.isLadder :=
      List.mem_filter.2 ⟨hL, rfl⟩
    rw [buildObjects_ladders_eq, ladderObjects_none hlt] at hmem
    simp at hmem
  · intro hge
    have hperm := floorMeta_standY_perm level zones
    have hne : (floorMeta level zones).map (fun f => f.standY) ≠ [] := by
      intro h0
      have hlen := floorMeta_length level zones
      rw [← List.length_map (floorMeta level zones) (fun f => f.standY), h0] at hlen
      simp only [List.length_nil] at hlen
      omega
    obtain ⟨hminm, hminle⟩ := mathMin_spec hne
    obtain ⟨hmaxm, hmaxle⟩ := mathMax_spec hne
    refine ⟨⟨getLadderX1 innerWidth, getLadderX2 innerWidth,
      mathMin ((floorMeta level zones).map (fun f => f.standY)),
      mathMax ((floorMeta level zones).map (fun f => f.standY))⟩, ?_, ?_, ?_, ?_, ?_, ?_, ?_, ?_, ?_⟩
    · show (buildObjects level innerWidth zones).filter WorldObj.isLadder = _
      rw [buildObjects_ladders_eq, ladderObjects_some hge]
    · exact getLadderX1_eq innerWidth
    · simp only [getLadderX2, LADDER_W]
    · exact hperm.mem_iff.1 hminm
    · exact fun s hs => hminle s (hperm.mem_iff.2 hs)
    · exact hperm.mem_iff.1 hmaxm
    · exact fun s hs => hmaxle s (hperm.mem_iff.2 hs)
    · exact hminle _ hmaxm
    · rw [getLadderX1_eq]
      exact le_max_left _ _
  · show (buildObjects LEVEL innerWidth _).filter WorldObj.isLadder = _
    rw [buildObjects_ladders_eq, ladderObjects_some (by decide), getLadderX2, getLadderX1_eq]
    have hne : ¬ ("about" = "hero") := by decide
    norm_num [floorMeta, floorMetaOf, LEVEL, mathMin, mathMax, List.insertionSort,
      List.orderedInsert, CHAR_H, LADDER_W, hne]
  · refine mem_buildObjects.2 (Or.inl ⟨⟨"hero", some 0⟩, List.mem_cons_self _ _, ?_⟩)
    norm_num [floorObjects, authoredPlatforms, LEVEL]

/-- C8 witness: one measurable floor gives no ladder; hero (top 0) and about (top 1000) at
width 1000 give exactly one. -/
theorem rebuildWorld_ladder_witness :
    (∀ L, WorldObj.ladder L ∉
      (rebuildWorld LEVEL 1000 [⟨"hero", some 0⟩, ⟨"about", none⟩]
        ⟨[], Character.initial⟩).objects) ∧
    (∃ L, (rebuildWorld LEVEL 1000 [⟨"hero", some 0⟩, ⟨"about", some 1000⟩]
          ⟨[], Character.initial⟩).objects.filter WorldObj.isLadder = [WorldObj.ladder L] ∧
        L.x1 = max 0 (1000 - 124) ∧ L.x2 = L.x1 + 54 ∧
        L.yTop ∈ measurableStandYs LEVEL [⟨"hero", some 0⟩, ⟨"about", some 1000⟩] ∧
        (∀ s ∈ measurableStandYs LEVEL [⟨"hero", some 0⟩, ⟨"about", some 1000⟩], L.yTop ≤ s) ∧
        L.yBot ∈ measurableStandYs LEVEL [⟨"hero", some 0⟩, ⟨"about", some 1000⟩] ∧
        (∀ s ∈ measurableStandYs LEVEL [⟨"hero", some 0⟩, ⟨"about", some 1000⟩], s ≤ L.yBot) ∧
        L.yTop ≤ L.yBot ∧ 0 ≤ L.x1) :=
  ⟨(rebuildWorld_ladder LEVEL 1000 [⟨"hero", some 0⟩, ⟨"about", none⟩]
      ⟨[], Character.initial⟩).1 (by decide),
   (rebuildWorld_ladder LEVEL 1000 [⟨"hero", some 0⟩, ⟨"about", some 1000⟩]
      ⟨[], Character.initial⟩).2.1 (by decide)⟩

/-! ## C9: ladder freeze -/

theorem focusedStep_freeze {innerWidth : ℚ} {objects : List WorldObj} {keys : Keys}
    {c : Character}
    (hl : getLadder objects (wallClampX innerWidth keys c.x) c.y ≠ none)
    (hu : keys.ArrowUp = false) (hd : keys.ArrowDown = false) :
    focusedStep innerWidth objects keys c = ⟨wallClampX innerWidth keys c.x, c.y, 0, false⟩ := by
  cases hg : getLadder objects (wallClampX innerWidth keys c.x) c.y with
  | none => exact absurd hg hl
  | some L => rw [focusedStep_onLadder hg, ladderBranch_no_climb L keys _ _ hu hd]

theorem runFocused_freeze_y (innerWidth : ℚ) (objects : List WorldObj) (ks : List Keys)
    (c : Character) (h : FreezeFrames innerWidth objects c ks) :
    (runFocused innerWidth objects c ks).y = c.y := by
  induction ks generalizing c with
  | nil => rfl
  | cons k ks ih =>
    obtain ⟨hu, hd, hl, hrest⟩ := h
    rw [runFocused, ih _ hrest, focusedStep_freeze hl hu hd]

/-- C9: in every Focused step in which `getLadder` at the post-clamp `x` and current `y` returns
a ladder and neither ArrowUp nor ArrowDown is held, the step leaves `y` unchanged, sets
`vy = 0` and on-ground false whatever the prior `vy`, on-ground flag, jump key or platforms are,
and `x` is the wall-clamped `x` after horizontal input (not snapped to the ladder column); over
any number of such frames `y` never changes. -/
theorem focusedStep_ladder_freeze (innerWidth : ℚ) (objects : List WorldObj) :
    (∀ (keys : Keys) (c : Character) (L : Ladder),
      getLadder objects (wallClampX innerWidth keys c.x) c.y = some L →
      keys.ArrowUp = false → keys.ArrowDown = false →
      focusedStep innerWidth objects keys c
        = ⟨wallClampX innerWidth keys c.x, c.y, 0, false⟩) ∧
    (∀ (ks : List Keys) (c : Character), FreezeFrames innerWidth objects c ks →
      (runFocused innerWidth objects c ks).y = c.y) := by
  constructor
  · intro keys c L hg hu hd
    exact focusedStep_freeze (by rw [hg]; simp) hu hd
  · intro ks c h
    exact runFocused_freeze_y innerWidth objects ks c h

/-- C9 witness: on the ladder `[876, 930] × [212, 1192]` at width 1000, a character at
`(900, 500)` falling at `vy = 7` with Space held stays at `y = 500`; two frames holding
ArrowLeft move `x` to 896 and 892 and leave `y = 500`. -/
theorem focusedStep_ladder_freeze_witness :
    focusedStep 1000 [WorldObj.ladder ⟨876, 930, 212, 1192⟩]
        ⟨false, false, false, false, true⟩ ⟨900, 500, 7, true⟩
      = ⟨wallClampX 1000 ⟨false, false, false, false, true⟩ 900, 500, 0, false⟩ ∧
    (runFocused 1000 [WorldObj.ladder ⟨876, 930, 212, 1192⟩] ⟨900, 500, 7, true⟩
        [⟨true, false, false, false, false⟩, ⟨true, false, false, false, false⟩]).y = 500 := by
  have h := focusedStep_ladder_freeze 1000 [WorldObj.ladder ⟨876, 930, 212, 1192⟩]
  refine ⟨h.1 ⟨false, false, false, false, true⟩ ⟨900, 500, 7, true⟩ ⟨876, 930, 212, 1192⟩
    ?_ rfl rfl, h.2 _ ⟨900, 500, 7, true⟩ ?_⟩
  · norm_num [getLadder, wallClampX, TOWER_LEFT, TOWER_RIGHT, CHAR_W]
  · norm_num [FreezeFrames, focusedStep, ladderBranch, getLadder, wallClampX, TOWER_LEFT,
      TOWER_RIGHT, CHAR_W, SPEED_X]
    exact Option.some_ne_none _

/-! ## C10: jump impulse -/

theorem jumpGravityVy_jump {keys : Keys} {c : Character} (hg : c.onGround = true)
    (hk : keys.Space = true ∨ keys.ArrowUp = true) :
    jumpGravityVy keys c = -JUMP_V + GRAVITY := by
  have hj : jumps keys c = true := by
    unfold jumps
    rcases hk with h | h <;> simp [h, hg]
  simp only [jumpGravityVy, hj, if_true]

theorem jumpGravityVy_airborne {keys : Keys} {c : Character} (hg : c.onGround = false) :
    jumpGravityVy keys c = c.vy + GRAVITY := by
  have hj : jumps keys c = false := by
    unfold jumps
    simp [hg]
  simp [jumpGravityVy, hj]

/-- C10: in a Focused step whose ladder query finds no ladder: if on-ground is true and a
jump key (Space or ArrowUp) is held, `vy` is set to −16 before gravity is added, so the
velocity after the update is −16 + 0.9 = −15.1 and the step ends with `vy = −15.1`,
`y = y_old − 15.1`, on-ground false, whatever platforms the world holds (no landing query);
if on-ground is false, the jump keys have no effect (the step equals the one with Space and
ArrowUp released) and the velocity update only adds the gravity increment 0.9. -/
theorem focusedStep_jump_impulse (innerWidth : ℚ) (objects : List WorldObj) (keys : Keys)
    (c : Character)
    (hoff : getLadder objects (wallClampX innerWidth keys c.x) c.y = none) :
    (c.onGround = true → (keys.Space = true ∨ keys.ArrowUp = true) →
      jumpGravityVy keys c = -16 + 9 / 10 ∧
      focusedStep innerWidth objects keys c
        = ⟨wallClampX innerWidth keys c.x, c.y - 151 / 10, -(151 / 10), false⟩) ∧
    (c.onGround = false →
      jumpGravityVy keys c = c.vy + 9 / 10 ∧
      focusedStep innerWidth objects keys c
        = focusedStep innerWidth objects { keys with Space := false, ArrowUp := false } c) := by
  constructor
  · intro hg hk
    have hv : jumpGravityVy keys c = -16 + 9 / 10 := by
      rw [jumpGravityVy_jump hg hk, JUMP_V, GRAVITY]
    refine ⟨hv, ?_⟩
    rw [focusedStep_offLadder hoff, physicsBranch_no_landing (Or.inl (by rw [hv]; norm_num)), hv]
    congr 1 <;> ring
  · intro hg
    refine ⟨by rw [jumpGravityVy_airborne hg, GRAVITY], ?_⟩
    have hoff2 : getLadder objects
        (wallClampX innerWidth { keys with Space := false, ArrowUp := false } c.x) c.y = none :=
      hoff
    rw [focusedStep_offLadder hoff, focusedStep_offLadder hoff2]
    have hv : jumpGravityVy { keys with Space := false, ArrowUp := false } c
        = jumpGravityVy keys c := by
      rw [jumpGravityVy_airborne hg, jumpGravityVy_airborne hg]
    simp only [physicsBranch, hv]
    rfl

/-- C10 witness: at rest on the platform `[60, 280] @ y 260` (`y = 212`, on-ground) with Space
held the step ends at `y = 212 − 15.1` with `vy = −15.1`; airborne with Space held the step is
the one without the key. -/
theorem focusedStep_jump_impulse_witness :
    (jumpGravityVy ⟨false, false, false, false, true⟩ ⟨100, 212, 0, true⟩ = -16 + 9 / 10 ∧
      focusedStep 1000 [WorldObj.platform ⟨"hero", 60, 280, 260⟩]
          ⟨false, false, false, false, true⟩ ⟨100, 212, 0, true⟩
        = ⟨wallClampX 1000 ⟨false, false, false, false, true⟩ 100, 212 - 151 / 10,
            -(151 / 10), false⟩) ∧
    (jumpGravityVy ⟨false, false, false, false, true⟩ ⟨100, 100, 3, false⟩ = 3 + 9 / 10 ∧
      focusedStep 1000 [WorldObj.platform ⟨"hero", 60, 280, 260⟩]
          ⟨false, false, false, false, true⟩ ⟨100, 100, 3, false⟩
        = focusedStep 1000 [WorldObj.platform ⟨"hero", 60, 280, 260⟩]
          ⟨false, false, false, false, false⟩ ⟨100, 100, 3, false⟩) :=
  ⟨(focusedStep_jump_impulse 1000 [WorldObj.platform ⟨"hero", 60, 280, 260⟩]
      ⟨false, false, false, false, true⟩ ⟨100, 212, 0, true⟩ rfl).1 rfl (Or.inl rfl),
   (focusedStep_jump_impulse 1000 [WorldObj.platform ⟨"hero", 60, 280, 260⟩]
      ⟨false, false, false, false, true⟩ ⟨100, 100, 3, false⟩ rfl).2 rfl⟩

/-! ## C11: worlds without a ladder -/

theorem getLadder_none_of_no_ladder {objects : List WorldObj}
    (hno : ∀ L, WorldObj.ladder L ∉ objects) (x y : ℚ) : getLadder objects x y = none := by
  cases hg : getLadder objects x y with
  | none => rfl
  | some L => exact absurd (getLadder_some_spec hg).1 (hno L)

theorem frame_browse_autoRide (vp : Viewport) (scrollYAfter : ℚ → ℚ) (objects : List WorldObj)
    (keys : Keys) (c : Character) :
    frame vp scrollYAfter objects keys false true c =
      ⟨⟨getLadderXCenter vp.innerWidth, vp.scrollY + vp.innerHeight * CAMERA_TARGET_Y, 0, false⟩,
        none, ⟨getLadderXCenter vp.innerWidth, vp.innerHeight * CAMERA_TARGET_Y⟩⟩ := by
  simp [frame]

theorem frame_focused (vp : Viewport) (scrollYAfter : ℚ → ℚ) (objects : List WorldObj)
    (keys : Keys) (a : Bool) (c : Character) :
    frame vp scrollYAfter objects keys true a c =
      ⟨focusedStep vp.innerWidth objects keys c,
        some (max 0 ((focusedStep vp.innerWidth objects keys c).y
          - vp.innerHeight * CAMERA_TARGET_Y)),
        ⟨(focusedStep vp.innerWidth objects keys c).x,
          (focusedStep vp.innerWidth objects keys c).y
            - scrollYAfter (max 0 ((focusedStep vp.innerWidth objects keys c).y
              - vp.innerHeight * CAMERA_TARGET_Y))⟩⟩ := by
  simp [frame]

theorem frame_browse_scrollTo (vp : Viewport) (scrollYAfter : ℚ → ℚ) (objects : List WorldObj)
    (keys : Keys) (a : Bool) (c : Character) :
    (frame vp scrollYAfter objects keys false a c).scrollTo = none := by
  cases a <;> simp [frame]

/-- C11 (as stated, refuted): the world rebuilt for the single floor `hero` (top 0, width 1000,
shipped level) holds no ladder, yet a Browse frame with auto-ride on (viewport height 800,
scroll offset 0) moves the freshly spawned character from `(887, 212)`, on-ground, to
`(887, 480)`, not on-ground. -/
theorem browse_autoRide_moves_without_ladder :
    (∀ L, WorldObj.ladder L ∉
      (rebuildWorld LEVEL 1000 [⟨"hero", some 0⟩] ⟨[], Character.initial⟩).objects) ∧
    (rebuildWorld LEVEL 1000 [⟨"hero", some 0⟩] ⟨[], Character.initial⟩).char
      = ⟨887, 212, 0, true⟩ ∧
    (frame ⟨1000, 800, 0⟩ (fun t => t)
      (rebuildWorld LEVEL 1000 [⟨"hero", some 0⟩] ⟨[], Character.initial⟩).objects Keys.none
      false true (rebuildWorld LEVEL 1000 [⟨"hero", some 0⟩] ⟨[], Character.initial⟩).char).char
      = ⟨887, 480, 0, false⟩ ∧
    (frame ⟨1000, 800, 0⟩ (fun t => t)
      (rebuildWorld LEVEL 1000 [⟨"hero", some 0⟩] ⟨[], Character.initial⟩).objects Keys.none
      false true (rebuildWorld LEVEL 1000 [⟨"hero", some 0⟩] ⟨[], Character.initial⟩).char).char
      ≠ (rebuildWorld LEVEL 1000 [⟨"hero", some 0⟩] ⟨[], Character.initial⟩).char := by
  simp only [rebuildWorld, buildObjects_hero_1000, frame_browse_autoRide]
  norm_num [spawn, firstPlatform, Character.initial, getLadderXCenter, getLadderX1,
    LADDER_MARGIN_RIGHT, LADDER_W, CHAR_W, CHAR_H, CAMERA_TARGET_Y]
  intro L
  refine ⟨?_, ?_, ?_⟩ <;> exact fun h => WorldObj.noConfusion h

/-- C11 (amended): for every world containing no ladder object, a Focused-mode frame never
takes the ladder branch: the ladder query returns none at every position and the step is the
platform-physics branch at the wall-clamped `x` (climb keys neither freeze nor move `y`).  A
Browse-mode frame with auto-ride on is not a no-op there: it teleports the character to the
ladder-column centre and `scrollY + 0.6·innerHeight` with `vy = 0`, on-ground false, exactly as
in a world with a ladder. -/
theorem no_ladder_world_frames (objects : List WorldObj)
    (hno : ∀ L, WorldObj.ladder L ∉ objects) :
    (∀ x y, getLadder objects x y = none) ∧
    (∀ (innerWidth : ℚ) (keys : Keys) (c : Character),
      focusedStep innerWidth objects keys c
        = physicsBranch objects keys c (wallClampX innerWidth keys c.x)) ∧
    (∀ (vp : Viewport) (scrollYAfter : ℚ → ℚ) (keys : Keys) (c : Character),
      (frame vp scrollYAfter objects keys false true c).char
        = ⟨getLadderXCenter vp.innerWidth, vp.scrollY + vp.innerHeight * (3 / 5), 0, false⟩) := by
  refine ⟨getLadder_none_of_no_ladder hno, ?_, ?_⟩
  · intro innerWidth keys c
    exact focusedStep_offLadder (getLadder_none_of_no_ladder hno _ _)
  · intro vp sa keys c
    rw [frame_browse_autoRide, CAMERA_TARGET_Y]

/-- C11 witness: the world holding only the platform `[60, 280] @ y 260`; with ArrowUp held
off-ground at `(100, 100)` the step is the physics branch. -/
theorem no_ladder_world_frames_witness :
    focusedStep 1000 [WorldObj.platform ⟨"hero", 60, 280, 260⟩]
        ⟨false, false, true, false, false⟩ ⟨100, 100, 0, false⟩
      = physicsBranch [WorldObj.platform ⟨"hero", 60, 280, 260⟩]
        ⟨false, false, true, false, false⟩ ⟨100, 100, 0, false⟩
        (wallClampX 1000 ⟨false, false, true, false, false⟩ 100) :=
  (no_ladder_world_frames [WorldObj.platform ⟨"hero", 60, 280, 260⟩]
    (by intro L hL; simp at hL)).2.1 1000 ⟨false, false, true, false, false⟩
    ⟨100, 100, 0, false⟩

/-! ## C12: scroll-stop debounce -/

/-- C12 (the code at the failing input): scroll in Browse mode, click the character within the
debounce window, let the mode-change cleanup run, press Escape, let the cleanup run again.
The state is Browse with `autoLadderRef` true and no timer pending, no event but a new scroll
can reset the flag, and a Browse frame (width 1000, height 800, scroll offset 300) still
teleports a character left at `(100, 212)` to `(887, 780)`. -/
theorem autoLadder_stuck_after_focus_round_trip :
    runEvents ModeState.initial
      [Event.scroll, Event.click, Event.effectCleanup, Event.keyEscape, Event.effectCleanup]
      = ⟨false, false, true, false⟩ ∧
    Reachable ⟨false, false, true, false⟩ ∧
    (∀ e, e ≠ Event.scroll →
      (applyEvent ⟨false, false, true, false⟩ e).autoLadder = true ∧
      (applyEvent ⟨false, false, true, false⟩ e).timerPending = false) ∧
    (frame ⟨1000, 800, 300⟩ (fun t => t) [] Keys.none false true ⟨100, 212, 0, true⟩).char
      = ⟨887, 780, 0, false⟩ := by
  have h : runEvents ModeState.initial
      [Event.scroll, Event.click, Event.effectCleanup, Event.keyEscape, Event.effectCleanup]
      = ⟨false, false, true, false⟩ := by decide
  refine ⟨h, ⟨_, h⟩, ?_, ?_⟩
  · intro e he
    cases e <;> first | exact absurd rfl he | exact ⟨rfl, rfl⟩
  · rw [frame_browse_autoRide]
    norm_num [getLadderXCenter, getLadderX1, LADDER_MARGIN_RIGHT, LADDER_W, CHAR_W,
      CAMERA_TARGET_Y]

/-! ## Double rounding: basic facts -/

theorem abs_roundHalfEven_sub_le (q : ℚ) : |(roundHalfEven q : ℚ) - q| ≤ 1 / 2 := by
  have h1 := Int.floor_le q
  have h2 := Int.lt_floor_add_one q
  unfold roundHalfEven
  split_ifs with ha hb hc
  · rw [abs_le]; constructor <;> linarith
  · push_cast; rw [abs_le]; constructor <;> linarith
  · rw [abs_le]; constructor <;> linarith
  · push_cast; rw [abs_le]; constructor <;> linarith

theorem roundHalfEven_nonneg {q : ℚ} (h : 0 ≤ q) : 0 ≤ roundHalfEven q := by
  have hf : 0 ≤ ⌊q⌋ := Int.floor_nonneg.2 h
  unfold roundHalfEven
  split_ifs <;> omega

theorem roundHalfEven_nonpos {q : ℚ} (h : q ≤ 0) : roundHalfEven q ≤ 0 := by
  have h1 := Int.floor_le q
  unfold roundHalfEven
  by_cases ha : q - ⌊q⌋ < 1 / 2
  · rw [if_pos ha]
    exact Int.floor_nonpos h
  · have hlt : (⌊q⌋ : ℚ) < 0 := by linarith
    have hle : ⌊q⌋ + 1 ≤ 0 := by
      have : ⌊q⌋ < 0 := by exact_mod_cast hlt
      omega
    rw [if_neg ha]
    split_ifs <;> omega

theorem roundHalfEven_eq_of_lt {q : ℚ} {z : ℤ} (h1 : (z : ℚ) - 1 / 2 < q)
    (h2 : q < z + 1 / 2) : roundHalfEven q = z := by
  unfold roundHalfEven
  by_cases hq : (z : ℚ) ≤ q
  · have hf : ⌊q⌋ = z := Int.floor_eq_iff.2 ⟨hq, by linarith⟩
    rw [hf, if_pos (by linarith)]
  · have hf : ⌊q⌋ = z - 1 := Int.floor_eq_iff.2 ⟨by push_cast; linarith, by push_cast; linarith⟩
    rw [hf, if_neg (by push_cast; linarith), if_pos (by push_cast; linarith)]
    ring

theorem roundHalfEven_eq_of_tie {q : ℚ} (z0 : ℤ) {z : ℤ} (hq : q = (z0 : ℚ) + 1 / 2)
    (hz : (if z0 % 2 = 0 then z0 else z0 + 1) = z) : roundHalfEven q = z := by
  have hf : ⌊(z0 : ℚ) + 1 / 2⌋ = z0 := Int.floor_eq_iff.2 ⟨by linarith, by linarith⟩
  rw [hq, ← hz]
  unfold roundHalfEven
  rw [hf, if_neg (by norm_num), if_neg (by norm_num)]

theorem log_abs_eq {q : ℚ} {k : ℤ} (h1 : (2 : ℚ) ^ k ≤ |q|) (h2 : |q| < (2 : ℚ) ^ (k + 1)) :
    Int.log 2 |q| = k := by
  have hpos : 0 < |q| := lt_of_lt_of_le (by positivity) h1
  have ha : k ≤ Int.log 2 |q| :=
    (Int.zpow_le_iff_le_log (by norm_num) hpos).1 (by exact_mod_cast h1)
  have hb : Int.log 2 |q| < k + 1 :=
    (Int.lt_zpow_iff_log_lt (by norm_num) hpos).1 (by exact_mod_cast h2)
  omega

/-- Evaluation of `toDouble` once the binary exponent `k` and the rounded mantissa `z` of the
argument are known. -/
theorem toDouble_eval {q : ℚ} (k z : ℤ) (h1 : (2 : ℚ) ^ k ≤ |q|) (h2 : |q| < (2 : ℚ) ^ (k + 1))
    (hz : roundHalfEven (q / 2 ^ (k - 52)) = z) : toDouble q = z * 2 ^ (k - 52) := by
  have hne : q ≠ 0 := by
    intro h0
    rw [h0, abs_zero] at h1
    exact absurd h1 (not_le.2 (by positivity))
  rw [toDouble, if_neg hne, log_abs_eq h1 h2, hz]

/-- The relative rounding error of a double is at most `2⁻⁵³`. -/
theorem abs_toDouble_sub_le (q : ℚ) : |toDouble q - q| ≤ |q| / 2 ^ 53 := by
  unfold toDouble
  by_cases h0 : q = 0
  · simp [h0]
  · rw [if_neg h0]
    have hpos : 0 < |q| := abs_pos.2 h0
    set L := Int.log 2 |q| with hL
    have hu : (0 : ℚ) < 2 ^ (L - 52) := by positivity
    have hr := abs_roundHalfEven_sub_le (q / 2 ^ (L - 52))
    have hlog : (2 : ℚ) ^ L ≤ |q| := by
      have h : ((2 : ℕ) : ℚ) ^ Int.log 2 |q| ≤ |q| := Int.zpow_log_le_self (by norm_num) hpos
      exact_mod_cast h
    have e : (roundHalfEven (q / 2 ^ (L - 52)) : ℚ) * 2 ^ (L - 52) - q
        = ((roundHalfEven (q / 2 ^ (L - 52)) : ℚ) - q / 2 ^ (L - 52)) * 2 ^ (L - 52) := by
      field_simp
    rw [e, abs_mul, abs_of_pos hu]
    have h52 : (2 : ℚ) ^ (L - 52) = 2 ^ L / 2 ^ 52 := by
      rw [zpow_sub₀ (by norm_num)]
      norm_num
    calc |(roundHalfEven (q / 2 ^ (L - 52)) : ℚ) - q / 2 ^ (L - 52)| * 2 ^ (L - 52)
        ≤ 1 / 2 * 2 ^ (L - 52) := by gcongr
      _ = 2 ^ L / 2 ^ 53 := by rw [h52]; ring
      _ ≤ |q| / 2 ^ 53 := by gcongr

theorem toDouble_nonneg {q : ℚ} (h : 0 ≤ q) : 0 ≤ toDouble q := by
  unfold toDouble
  split_ifs
  · exact le_refl _
  · have hz : (0 : ℚ) ≤ roundHalfEven (q / 2 ^ (Int.log 2 |q| - 52)) := by
      exact_mod_cast roundHalfEven_nonneg (div_nonneg h (by positivity))
    exact mul_nonneg hz (by positivity)

theorem toDouble_nonpos {q : ℚ} (h : q ≤ 0) : toDouble q ≤ 0 := by
  unfold toDouble
  split_ifs
  · exact le_refl _
  · have hz : (roundHalfEven (q / 2 ^ (Int.log 2 |q| - 52)) : ℚ) ≤ 0 := by
      exact_mod_cast roundHalfEven_nonpos (div_nonpos_of_nonpos_of_nonneg h (by positivity))
    exact mul_nonpos_of_nonpos_of_nonneg hz (by positivity)

/-- The literal `0.6` is the double `5404319552844595 / 2⁵³`. -/
theorem CAMERA_TARGET_Y_double_eq :
    CAMERA_TARGET_Y_double = 5404319552844595 / 9007199254740992 := by
  have h := @toDouble_eval (3 / 5) (-1) 5404319552844595 (by norm_num [abs_of_pos])
    (by norm_num [abs_of_pos]) (roundHalfEven_eq_of_lt (by norm_num) (by norm_num))
  rw [CAMERA_TARGET_Y_double, h]
  norm_num

/-- In doubles, `657 * 0.6` is `394.2`. -/
theorem targetScreenY_657 :
    toDouble (657 * CAMERA_TARGET_Y_double) = 6934839738708787 / 17592186044416 := by
  rw [CAMERA_TARGET_Y_double_eq]
  have h := @toDouble_eval (657 * (5404319552844595 / 9007199254740992)) 8 6934839738708787
    (by norm_num [abs_of_pos]) (by norm_num [abs_of_pos])
    (roundHalfEven_eq_of_lt (by norm_num) (by norm_num))
  rw [h]
  norm_num

/-- In doubles, `118 + 394.2` is `512.2` (a tie, rounded to the even mantissa). -/
theorem autoRide_y_657_118 :
    toDouble (118 + 6934839738708787 / 17592186044416) = 2252679422987469 / 4398046511104 := by
  have h := @toDouble_eval (118 + 6934839738708787 / 17592186044416) 9 4505358845974938
    (by norm_num [abs_of_pos]) (by norm_num [abs_of_pos])
    (roundHalfEven_eq_of_tie 4505358845974937 (by norm_num) (by decide))
  rw [h]
  norm_num

/-- In doubles, `512.2 − 118` is `394.20000000000005`. -/
theorem translated_y_657_118 :
    toDouble (2252679422987469 / 4398046511104 - 118) = 1733709934677197 / 4398046511104 := by
  have h := @toDouble_eval (2252679422987469 / 4398046511104 - 118) 8 6934839738708788
    (by norm_num [abs_of_pos]) (by norm_num [abs_of_pos])
    (roundHalfEven_eq_of_lt (by norm_num) (by norm_num))
  rw [h]
  norm_num

/-- In doubles, `768 * 0.6` is `460.79999999999995`. -/
theorem targetScreenY_768 :
    toDouble (768 * CAMERA_TARGET_Y_double) = 2026619832316723 / 4398046511104 := by
  rw [CAMERA_TARGET_Y_double_eq]
  have h := @toDouble_eval (768 * (5404319552844595 / 9007199254740992)) 8 8106479329266892
    (by norm_num [abs_of_pos]) (by norm_num [abs_of_pos])
    (roundHalfEven_eq_of_tie 8106479329266892 (by norm_num) (by decide))
  rw [h]
  norm_num

/-- In doubles, `2509 − 460.79999999999995` is `2048.2000000000003`. -/
theorem cameraY_768_2509 :
    toDouble (2509 - 2026619832316723 / 4398046511104) = 2252019716010803 / 1099511627776 := by
  have h := @toDouble_eval (2509 - 2026619832316723 / 4398046511104) 11 4504039432021606
    (by norm_num [abs_of_pos]) (by norm_num [abs_of_pos])
    (roundHalfEven_eq_of_tie 4504039432021606 (by norm_num) (by decide))
  rw [h]
  norm_num

/-- In doubles, `2509 − 2048.2000000000003` is `460.8000000000002`. -/
theorem screenY_768_2509 :
    toDouble (2509 - 2252019716010803 / 1099511627776) = 506654958079181 / 1099511627776 := by
  have h := @toDouble_eval (2509 - 2252019716010803 / 1099511627776) 8 8106479329266896
    (by norm_num [abs_of_pos]) (by norm_num [abs_of_pos])
    (roundHalfEven_eq_of_lt (by norm_num) (by norm_num))
  rw [h]
  norm_num

theorem frameDouble_browse_autoRide (vp : Viewport) (scrollYAfter : ℚ → ℚ)
    (objects : List WorldObj) (keys : Keys) (c : Character) :
    frameDouble vp scrollYAfter objects keys false true c =
      ⟨⟨getLadderXCenter vp.innerWidth,
          toDouble (vp.scrollY + toDouble (vp.innerHeight * CAMERA_TARGET_Y_double)), 0, false⟩,
        none, ⟨getLadderXCenter vp.innerWidth,
          toDouble (vp.innerHeight * CAMERA_TARGET_Y_double)⟩⟩ := by
  simp [frameDouble]

theorem frameDouble_focused (vp : Viewport) (scrollYAfter : ℚ → ℚ) (objects : List WorldObj)
    (keys : Keys) (a : Bool) (c : Character) :
    frameDouble vp scrollYAfter objects keys true a c =
      ⟨focusedStep vp.innerWidth objects keys c,
        some (max 0 (toDouble ((focusedStep vp.innerWidth objects keys c).y
          - toDouble (vp.innerHeight * CAMERA_TARGET_Y_double)))),
        ⟨(focusedStep vp.innerWidth objects keys c).x,
          toDouble ((focusedStep vp.innerWidth objects keys c).y
            - scrollYAfter (max 0 (toDouble ((focusedStep vp.innerWidth objects keys c).y
              - toDouble (vp.innerHeight * CAMERA_TARGET_Y_double)))))⟩⟩ := by
  simp [frameDouble]

theorem frameDouble_browse_scrollTo (vp : Viewport) (scrollYAfter : ℚ → ℚ)
    (objects : List WorldObj) (keys : Keys) (a : Bool) (c : Character) :
    (frameDouble vp scrollYAfter objects keys false a c).scrollTo = none := by
  cases a <;> simp [frameDouble]

/-- Rounding does not change which branch a frame takes nor the `x`, velocity and on-ground
flag it stores: `frameDouble` and `frame` differ in the rounded `y` values only. -/
theorem frameDouble_agrees_with_frame (vp : Viewport) (scrollYAfter : ℚ → ℚ)
    (objects : List WorldObj) (keys : Keys) (isFocused autoLadder : Bool) (c : Character) :
    (frameDouble vp scrollYAfter objects keys isFocused autoLadder c).char.x
      = (frame vp scrollYAfter objects keys isFocused autoLadder c).char.x ∧
    (frameDouble vp scrollYAfter objects keys isFocused autoLadder c).char.vy
      = (frame vp scrollYAfter objects keys isFocused autoLadder c).char.vy ∧
    (frameDouble vp scrollYAfter objects keys isFocused autoLadder c).char.onGround
      = (frame vp scrollYAfter objects keys isFocused autoLadder c).char.onGround ∧
    (frameDouble vp scrollYAfter objects keys isFocused autoLadder c).render.x
      = (frame vp scrollYAfter objects keys isFocused autoLadder c).render.x ∧
    ((frameDouble vp scrollYAfter objects keys isFocused autoLadder c).scrollTo = none ↔
      (frame vp scrollYAfter objects keys isFocused autoLadder c).scrollTo = none) ∧
    (isFocused = true ∨ autoLadder = false →
      (frameDouble vp scrollYAfter objects keys isFocused autoLadder c).char
        = (frame vp scrollYAfter objects keys isFocused autoLadder c).char) := by
  cases isFocused <;> cases autoLadder <;> simp [frameDouble, frame]

/-! ## C13: Browse + auto-ride teleport -/

/-- C13 (as stated, refuted): at viewport 1000 × 657 and scroll offset 118 the Browse frame with
auto-ride on stores `y = 118 + 657 * 0.6 = 512.2` and renders at `y = 657 * 0.6 = 394.2`
(doubles), but the stored world `y` translated by `−scrollY` is `394.20000000000005`, both
exactly and as the double difference: the render position is not exactly the new world
position translated by `−scrollY`. -/
theorem autoRide_render_not_translated_position :
    (frameDouble ⟨1000, 657, 118⟩ (fun t => t) [] Keys.none false true Character.initial).char
      = ⟨887, 2252679422987469 / 4398046511104, 0, false⟩ ∧
    (frameDouble ⟨1000, 657, 118⟩ (fun t => t) [] Keys.none false true Character.initial).render
      = ⟨887, 6934839738708787 / 17592186044416⟩ ∧
    (frameDouble ⟨1000, 657, 118⟩ (fun t => t) [] Keys.none false true Character.initial).char.y
        - 118
      ≠ (frameDouble ⟨1000, 657, 118⟩ (fun t => t) [] Keys.none false true
          Character.initial).render.y ∧
    toDouble ((frameDouble ⟨1000, 657, 118⟩ (fun t => t) [] Keys.none false true
        Character.initial).char.y - 118)
      ≠ (frameDouble ⟨1000, 657, 118⟩ (fun t => t) [] Keys.none false true
          Character.initial).render.y := by
  have hx : getLadderXCenter 1000 = 887 := by
    norm_num [getLadderXCenter, getLadderX1, LADDER_MARGIN_RIGHT, LADDER_W, CHAR_W]
  simp only [frameDouble_browse_autoRide, targetScreenY_657, autoRide_y_657_118,
    translated_y_657_118, hx]
  norm_num

/-- C13 (amended): for every prior character state, scroll offset and viewport size, a
Browse-mode frame with auto-ride on sets `x = ladderX1 + LADDER_W/2 − CHAR_W/2`
(= `ladderX1 + 11`, with `ladderX1 = max(0, innerWidth − 124)`),
`y = scrollY + innerHeight * 0.6` evaluated in doubles, `vy = 0`, on-ground false, and renders
at `(x, innerHeight * 0.6)`; that render position is the new world position translated by
`−scrollY` up to double rounding only: `|render.y − (y − scrollY)| ≤ |scrollY + render.y| / 2⁵³`.
The result does not depend on the prior character state (nor on the world or the keys). -/
theorem frameDouble_autoRide_teleport (vp : Viewport) (scrollYAfter : ℚ → ℚ)
    (objects : List WorldObj) (keys : Keys) (c : Character) :
    (frameDouble vp scrollYAfter objects keys false true c).char
      = ⟨max 0 (vp.innerWidth - 124) + LADDER_W / 2 - CHAR_W / 2,
          toDouble (vp.scrollY + toDouble (vp.innerHeight * CAMERA_TARGET_Y_double)),
          0, false⟩ ∧
    max 0 (vp.innerWidth - 124) + LADDER_W / 2 - CHAR_W / 2 = max 0 (vp.innerWidth - 124) + 11 ∧
    CAMERA_TARGET_Y_double = 5404319552844595 / 9007199254740992 ∧
    (frameDouble vp scrollYAfter objects keys false true c).render
      = ⟨(frameDouble vp scrollYAfter objects keys false true c).char.x,
          toDouble (vp.innerHeight * CAMERA_TARGET_Y_double)⟩ ∧
    |(frameDouble vp scrollYAfter objects keys false true c).render.y
        - ((frameDouble vp scrollYAfter objects keys false true c).char.y - vp.scrollY)|
      ≤ |vp.scrollY + (frameDouble vp scrollYAfter objects keys false true c).render.y|
          / 2 ^ 53 ∧
    (∀ (objects2 : List WorldObj) (keys2 : Keys) (c2 : Character),
      frameDouble vp scrollYAfter objects2 keys2 false true c2
        = frameDouble vp scrollYAfter objects keys false true c) := by
  refine ⟨?_, ?_, CAMERA_TARGET_Y_double_eq, ?_, ?_, ?_⟩
  · rw [frameDouble_browse_autoRide, getLadderXCenter, getLadderX1_eq]
  · rw [LADDER_W, CHAR_W]
    ring
  · rw [frameDouble_browse_autoRide]
  · rw [frameDouble_browse_autoRide]
    have h := abs_toDouble_sub_le
      (vp.scrollY + toDouble (vp.innerHeight * CAMERA_TARGET_Y_double))
    rw [abs_sub_comm] at h
    have e : toDouble (vp.innerHeight * CAMERA_TARGET_Y_double)
        - (toDouble (vp.scrollY + toDouble (vp.innerHeight * CAMERA_TARGET_Y_double))
          - vp.scrollY)
        = vp.scrollY + toDouble (vp.innerHeight * CAMERA_TARGET_Y_double)
          - toDouble (vp.scrollY + toDouble (vp.innerHeight * CAMERA_TARGET_Y_double)) := by
      ring
    show |toDouble (vp.innerHeight * CAMERA_TARGET_Y_double)
        - (toDouble (vp.scrollY + toDouble (vp.innerHeight * CAMERA_TARGET_Y_double))
          - vp.scrollY)| ≤ _
    rw [e]
    exact h
  · intro objects2 keys2 c2
    rw [frameDouble_browse_autoRide, frameDouble_browse_autoRide]

/-! ## C14: camera follow -/

/-- C14 (as stated, refuted): at viewport 1000 × 768 a character frozen on the ladder at
`y' = 2509` has `y' ≥ 768 * 0.6 = 460.79999999999995`; the Focused frame requests the scroll
offset `2509 − 460.79999999999995 = 2048.2000000000003` (doubles), and `y'` minus that offset
is `460.8000000000002`, exactly and as the double difference, not `768 * 0.6`. -/
theorem camera_follow_screen_y_off_target :
    (frameDouble ⟨1000, 768, 0⟩ (fun t => t) [WorldObj.ladder ⟨876, 930, 212, 3000⟩] Keys.none
        true false ⟨900, 2509, 0, false⟩).char = ⟨900, 2509, 0, false⟩ ∧
    (frameDouble ⟨1000, 768, 0⟩ (fun t => t) [WorldObj.ladder ⟨876, 930, 212, 3000⟩] Keys.none
        true false ⟨900, 2509, 0, false⟩).scrollTo
      = some (2252019716010803 / 1099511627776) ∧
    toDouble (768 * CAMERA_TARGET_Y_double) = 2026619832316723 / 4398046511104 ∧
    (2509 : ℚ) ≥ toDouble (768 * CAMERA_TARGET_Y_double) ∧
    (2509 : ℚ) - 2252019716010803 / 1099511627776 ≠ toDouble (768 * CAMERA_TARGET_Y_double) ∧
    toDouble (2509 - 2252019716010803 / 1099511627776)
      ≠ toDouble (768 * CAMERA_TARGET_Y_double) := by
  have hstep : focusedStep 1000 [WorldObj.ladder ⟨876, 930, 212, 3000⟩] Keys.none
      ⟨900, 2509, 0, false⟩ = ⟨900, 2509, 0, false⟩ := by
    norm_num [focusedStep, getLadder, wallClampX, ladderBranch, Keys.none, TOWER_LEFT,
      TOWER_RIGHT, CHAR_W]
  simp only [frameDouble_focused, hstep, targetScreenY_768, cameraY_768_2509,
    screenY_768_2509]
  norm_num

/-- C14 (amended): in every Focused frame the scroll offset requested is
`max(0, y' − innerHeight * 0.6)` evaluated in doubles, with `y'` the `y` persisted by that
frame; it is never negative and depends on nothing but `y'` and the viewport height.  The
character's screen-space `y` (`y'` minus the requested offset) is `y'` whenever
`y' < innerHeight * 0.6`; whenever `y' ≥ innerHeight * 0.6` it is `innerHeight * 0.6` up to
double rounding only: it differs from it by at most `|y' − innerHeight * 0.6| / 2⁵³`.  A
Browse-mode frame requests no scroll offset at all. -/
theorem frameDouble_camera_follow (vp : Viewport) (scrollYAfter : ℚ → ℚ)
    (objects : List WorldObj) (keys : Keys) (a : Bool) (c : Character) :
    (frameDouble vp scrollYAfter objects keys true a c).char
      = focusedStep vp.innerWidth objects keys c ∧
    (frameDouble vp scrollYAfter objects keys true a c).scrollTo
      = some (max 0 (toDouble ((frameDouble vp scrollYAfter objects keys true a c).char.y
          - toDouble (vp.innerHeight * CAMERA_TARGET_Y_double)))) ∧
    0 ≤ max 0 (toDouble ((frameDouble vp scrollYAfter objects keys true a c).char.y
          - toDouble (vp.innerHeight * CAMERA_TARGET_Y_double))) ∧
    ((frameDouble vp scrollYAfter objects keys true a c).char.y
        < toDouble (vp.innerHeight * CAMERA_TARGET_Y_double) →
      (frameDouble vp scrollYAfter objects keys true a c).scrollTo = some 0 ∧
      (frameDouble vp scrollYAfter objects keys true a c).char.y
        - max 0 (toDouble ((frameDouble vp scrollYAfter objects keys true a c).char.y
          - toDouble (vp.innerHeight * CAMERA_TARGET_Y_double)))
        = (frameDouble vp scrollYAfter objects keys true a c).char.y) ∧
    ((frameDouble vp scrollYAfter objects keys true a c).char.y
        ≥ toDouble (vp.innerHeight * CAMERA_TARGET_Y_double) →
      |(frameDouble vp scrollYAfter objects keys true a c).char.y
        - max 0 (toDouble ((frameDouble vp scrollYAfter objects keys true a c).char.y
          - toDouble (vp.innerHeight * CAMERA_TARGET_Y_double)))
        - toDouble (vp.innerHeight * CAMERA_TARGET_Y_double)|
      ≤ |(frameDouble vp scrollYAfter objects keys true a c).char.y
          - toDouble (vp.innerHeight * CAMERA_TARGET_Y_double)| / 2 ^ 53) ∧
    (frameDouble vp scrollYAfter objects keys false a c).scrollTo = none := by
  rw [frameDouble_focused, frameDouble_browse_scrollTo]
  refine ⟨rfl, rfl, le_max_left _ _, ?_, ?_, rfl⟩
  · intro h
    have hz : max 0 (toDouble ((focusedStep vp.innerWidth objects keys c).y
        - toDouble (vp.innerHeight * CAMERA_TARGET_Y_double))) = 0 :=
      max_eq_left (toDouble_nonpos (by linarith))
    exact ⟨by rw [hz], by rw [hz, sub_zero]⟩
  · intro h
    have hz : max 0 (toDouble ((focusedStep vp.innerWidth objects keys c).y
        - toDouble (vp.innerHeight * CAMERA_TARGET_Y_double)))
        = toDouble ((focusedStep vp.innerWidth objects keys c).y
          - toDouble (vp.innerHeight * CAMERA_TARGET_Y_double)) :=
      max_eq_right (toDouble_nonneg (by linarith))
    have hb := abs_toDouble_sub_le ((focusedStep vp.innerWidth objects keys c).y
      - toDouble (vp.innerHeight * CAMERA_TARGET_Y_double))
    rw [abs_sub_comm] at hb
    show |(focusedStep vp.innerWidth objects keys c).y
        - max 0 (toDouble ((focusedStep vp.innerWidth objects keys c).y
          - toDouble (vp.innerHeight * CAMERA_TARGET_Y_double)))
        - toDouble (vp.innerHeight * CAMERA_TARGET_Y_double)| ≤ _
    rw [hz]
    have e : (focusedStep vp.innerWidth objects keys c).y
        - toDouble ((focusedStep vp.innerWidth objects keys c).y
          - toDouble (vp.innerHeight * CAMERA_TARGET_Y_double))
        - toDouble (vp.innerHeight * CAMERA_TARGET_Y_double)
        = (focusedStep vp.innerWidth objects keys c).y
          - toDouble (vp.innerHeight * CAMERA_TARGET_Y_double)
          - toDouble ((focusedStep vp.innerWidth objects keys c).y
            - toDouble (vp.innerHeight * CAMERA_TARGET_Y_double)) := by
      ring
    rw [e]
    exact hb

/-- C14 witness: viewport 1000 × 768, character frozen on the ladder `[876, 930] × [212, 3000]`:
at `y' = 300` no scroll is requested and the screen `y` is 300; at `y' = 2509` the screen `y`
is within the rounding bound of `768 * 0.6`. -/
theorem frameDouble_camera_follow_witness :
    ((frameDouble ⟨1000, 768, 0⟩ (fun t => t) [WorldObj.ladder ⟨876, 930, 212, 3000⟩] Keys.none
          true false ⟨900, 300, 0, false⟩).scrollTo = some 0 ∧
      (frameDouble ⟨1000, 768, 0⟩ (fun t => t) [WorldObj.ladder ⟨876, 930, 212, 3000⟩] Keys.none
          true false ⟨900, 300, 0, false⟩).char.y
        - max 0 (toDouble ((frameDouble ⟨1000, 768, 0⟩ (fun t => t)
            [WorldObj.ladder ⟨876, 930, 212, 3000⟩] Keys.none true false
            ⟨900, 300, 0, false⟩).char.y
          - toDouble ((⟨1000, 768, 0⟩ : Viewport).innerHeight * CAMERA_TARGET_Y_double)))
        = (frameDouble ⟨1000, 768, 0⟩ (fun t => t) [WorldObj.ladder ⟨876, 930, 212, 3000⟩]
            Keys.none true false ⟨900, 300, 0, false⟩).char.y) ∧
    |(frameDouble ⟨1000, 768, 0⟩ (fun t => t) [WorldObj.ladder ⟨876, 930, 212, 3000⟩] Keys.none
          true false ⟨900, 2509, 0, false⟩).char.y
        - max 0 (toDouble ((frameDouble ⟨1000, 768, 0⟩ (fun t => t)
            [WorldObj.ladder ⟨876, 930, 212, 3000⟩] Keys.none true false
            ⟨900, 2509, 0, false⟩).char.y
          - toDouble ((⟨1000, 768, 0⟩ : Viewport).innerHeight * CAMERA_TARGET_Y_double)))
        - toDouble ((⟨1000, 768, 0⟩ : Viewport).innerHeight * CAMERA_TARGET_Y_double)|
      ≤ |(frameDouble ⟨1000, 768, 0⟩ (fun t => t) [WorldObj.ladder ⟨876, 930, 212, 3000⟩]
            Keys.none true false ⟨900, 2509, 0, false⟩).char.y
          - toDouble ((⟨1000, 768, 0⟩ : Viewport).innerHeight * CAMERA_TARGET_Y_double)|
          / 2 ^ 53 :=
  ⟨(frameDouble_camera_follow ⟨1000, 768, 0⟩ (fun t => t)
      [WorldObj.ladder ⟨876, 930, 212, 3000⟩] Keys.none false ⟨900, 300, 0, false⟩).2.2.2.1
      (by
        simp only [frameDouble_focused, targetScreenY_768]
        norm_num [focusedStep, getLadder, wallClampX, ladderBranch, Keys.none, TOWER_LEFT,
          TOWER_RIGHT, CHAR_W]),
   (frameDouble_camera_follow ⟨1000, 768, 0⟩ (fun t => t)
      [WorldObj.ladder ⟨876, 930, 212, 3000⟩] Keys.none false ⟨900, 2509, 0, false⟩).2.2.2.2.1
      (by
        simp only [frameDouble_focused, targetScreenY_768]
        norm_num [focusedStep, getLadder, wallClampX, ladderBranch, Keys.none, TOWER_LEFT,
          TOWER_RIGHT, CHAR_W])⟩

/-! ## C15: first spawn -/

theorem firstPlatform_mem {objects : List WorldObj} {p : Platform}
    (h : firstPlatform objects = some p) : WorldObj.platform p ∈ objects := by
  induction objects with
  | nil => simp [firstPlatform] at h
  | cons o rest ih =>
    cases o with
    | platform q =>
      simp only [firstPlatform, Option.some.injEq] at h
      subst h
      exact List.mem_cons_self _ _
    | ladder l => exact List.mem_cons_of_mem _ (ih h)

theorem firstPlatform_ne_none {objects : List WorldObj} {q : Platform}
    (h : WorldObj.platform q ∈ objects) : firstPlatform objects ≠ none := by
  induction objects with
  | nil => simp at h
  | cons o rest ih =>
    cases o with
    | platform p => simp [firstPlatform]
    | ladder l =>
      rcases List.mem_cons.1 h with h | h
      · cases h
      · exact ih h

/-- In a list sorted by `sortKey`, the first platform has the least `y` of all platforms. -/
theorem firstPlatform_le_of_sorted {objects : List WorldObj}
    (hs : objects.Sorted (fun a b => sortKey a ≤ sortKey b)) {p : Platform}
    (h : firstPlatform objects = some p) :
    ∀ q, WorldObj.platform q ∈ objects → p.y ≤ q.y := by
  induction objects with
  | nil => simp [firstPlatform] at h
  | cons o rest ih =>
    intro q hq
    cases o with
    | platform o =>
      simp only [firstPlatform, Option.some.injEq] at h
      subst h
      rcases List.mem_cons.1 hq with hq | hq
      · cases hq
        exact le_refl _
      · exact List.rel_of_sorted_cons hs _ hq
    | ladder l =>
      rcases List.mem_cons.1 hq with hq | hq
      · cases hq
      · exact ih (List.Sorted.of_cons hs) h q hq

theorem getLadderXCenter_eq (innerWidth : ℚ) :
    getLadderXCenter innerWidth = getLadderX1 innerWidth + 11 := by
  unfold getLadderXCenter LADDER_W CHAR_W
  ring

/-- C15: when `rebuildWorld` runs while the character is unset (`y = 0`) and the built world
contains at least one platform, the character ends with `y = p.y − CHAR_H` for `p` the first
platform of the sorted object list (whose `y` is the least over all platforms),
`x = ladderX1 + 11`, `vy = 0` and on-ground true; when the character is already placed
(`y ≠ 0`) or the world has no platform, `rebuildWorld` leaves the character unchanged. -/
theorem rebuildWorld_first_spawn (level : LevelConfig) (innerWidth : ℚ) (zones : List Zone)
    (w : World) :
    (w.char.y = 0 →
      (∃ q, WorldObj.platform q ∈ (rebuildWorld level innerWidth zones w).objects) →
      ∃ p, firstPlatform (rebuildWorld level innerWidth zones w).objects = some p ∧
        WorldObj.platform p ∈ (rebuildWorld level innerWidth zones w).objects ∧
        (∀ q, WorldObj.platform q ∈ (rebuildWorld level innerWidth zones w).objects →
          p.y ≤ q.y) ∧
        (rebuildWorld level innerWidth zones w).char
          = ⟨getLadderX1 innerWidth + 11, p.y - CHAR_H, 0, true⟩) ∧
    ((w.char.y ≠ 0 ∨
        ∀ q, WorldObj.platform q ∉ (rebuildWorld level innerWidth zones w).objects) →
      (rebuildWorld level innerWidth zones w).char = w.char) := by
  simp only [rebuildWorld]
  constructor
  · intro hy ⟨q, hq⟩
    cases hf : firstPlatform (buildObjects level innerWidth zones) with
    | none => exact absurd hf (firstPlatform_ne_none hq)
    | some p =>
      refine ⟨p, rfl, firstPlatform_mem hf,
        firstPlatform_le_of_sorted (buildObjects_sorted level innerWidth zones) hf, ?_⟩
      simp only [spawn, hf, if_pos hy, getLadderXCenter_eq]
  · intro h
    unfold spawn
    cases hf : firstPlatform (buildObjects level innerWidth zones) with
    | none => rfl
    | some p =>
      rcases h with h | h
      · simp only [if_neg h]
      · exact absurd (firstPlatform_mem hf) (h p)

/-- C15 witness: mounting with floors hero (top 0) and about (top 1000) at width 1000 spawns
the unset character; an already placed one (`y = 500`) is left alone. -/
theorem rebuildWorld_first_spawn_witness :
    (∃ p, firstPlatform (rebuildWorld LEVEL 1000 [⟨"hero", some 0⟩, ⟨"about", some 1000⟩]
          ⟨[], Character.initial⟩).objects = some p ∧
        WorldObj.platform p ∈ (rebuildWorld LEVEL 1000
          [⟨"hero", some 0⟩, ⟨"about", some 1000⟩] ⟨[], Character.initial⟩).objects ∧
        (∀ q, WorldObj.platform q ∈ (rebuildWorld LEVEL 1000
          [⟨"hero", some 0⟩, ⟨"about", some 1000⟩] ⟨[], Character.initial⟩).objects →
          p.y ≤ q.y) ∧
        (rebuildWorld LEVEL 1000 [⟨"hero", some 0⟩, ⟨"about", some 1000⟩]
          ⟨[], Character.initial⟩).char = ⟨getLadderX1 1000 + 11, p.y - CHAR_H, 0, true⟩) ∧
    (rebuildWorld LEVEL 1000 [⟨"hero", some 0⟩, ⟨"about", some 1000⟩]
      ⟨[], ⟨300, 500, 2, false⟩⟩).char = ⟨300, 500, 2, false⟩ :=
  ⟨(rebuildWorld_first_spawn LEVEL 1000 [⟨"hero", some 0⟩, ⟨"about", some 1000⟩]
      ⟨[], Character.initial⟩).1 rfl
      ⟨⟨"hero", 60, 280, 260⟩, mem_buildObjects.2 (Or.inl ⟨⟨"hero", some 0⟩,
        List.mem_cons_self _ _, by norm_num [floorObjects, authoredPlatforms, LEVEL]⟩)⟩,
   (rebuildWorld_first_spawn LEVEL 1000 [⟨"hero", some 0⟩, ⟨"about", some 1000⟩]
      ⟨[], ⟨300, 500, 2, false⟩⟩).2 (Or.inl (by norm_num))⟩

/-! ## C16 and C18: ladder climbing -/

theorem mem_ladderObjects_of_mem_buildObjects {level : LevelConfig} {innerWidth : ℚ}
    {zones : List Zone} {L : Ladder}
    (h : WorldObj.ladder L ∈ buildObjects level innerWidth zones) :
    WorldObj.ladder L ∈ ladderObjects level innerWidth zones := by
  rcases mem_buildObjects.1 h with ⟨z, _, hz⟩ | hl
  · have := floorObjects_isPlatform hz
    simp [WorldObj.isPlatform] at this
  · exact hl

/-- The built world holds at most one ladder. -/
theorem buildObjects_ladder_unique {level : LevelConfig} {innerWidth : ℚ} {zones : List Zone}
    {L L2 : Ladder} (h : WorldObj.ladder L ∈ buildObjects level innerWidth zones)
    (h2 : WorldObj.ladder L2 ∈ buildObjects level innerWidth zones) : L2 = L := by
  have m := mem_ladderObjects_of_mem_buildObjects h
  have m2 := mem_ladderObjects_of_mem_buildObjects h2
  unfold ladderObjects at m m2
  simp only at m m2
  by_cases hc : (floorMeta level zones).length ≥ 2
  · rw [if_pos hc, List.mem_singleton] at m m2
    exact WorldObj.ladder.inj (m2.trans m.symm)
  · rw [if_neg hc] at m
    simp at m

/-- Every ladder of the built world has `yTop ≤ yBot`. -/
theorem buildObjects_ladder_yTop_le_yBot {level : LevelConfig} {innerWidth : ℚ}
    {zones : List Zone} {L : Ladder}
    (h : WorldObj.ladder L ∈ buildObjects level innerWidth zones) : L.yTop ≤ L.yBot := by
  have m := mem_ladderObjects_of_mem_buildObjects h
  unfold ladderObjects at m
  simp only at m
  by_cases hc : (floorMeta level zones).length ≥ 2
  · rw [if_pos hc, List.mem_singleton] at m
    cases m
    have hne : (floorMeta level zones).map (fun f => f.standY) ≠ [] := by
      intro h0
      have := congrArg List.length h0
      simp only [List.length_map, List.length_nil] at this
      omega
    exact (mathMin_spec hne).2 _ (mathMax_spec hne).1
  · rw [if_neg hc] at m
    simp at m

/-- In the built world a ladder that passes both tests is the one `getLadder` returns. -/
theorem getLadder_buildObjects_eq {level : LevelConfig} {innerWidth : ℚ} {zones : List Zone}
    {L : Ladder} {x y : ℚ} (h : WorldObj.ladder L ∈ buildObjects level innerWidth zones)
    (hx : withinX x L.x1 L.x2) (hy : withinY y L.yTop L.yBot) :
    getLadder (buildObjects level innerWidth zones) x y = some L := by
  cases hg : getLadder (buildObjects level innerWidth zones) x y with
  | none => exact absurd hg (getLadder_isSome_of_mem h hx hy)
  | some L2 => rw [buildObjects_ladder_unique h (getLadder_some_spec hg).1]

/-- C16: in every Focused step in which `getLadder` (at the wall-clamped `x` and current `y`)
returns a ladder `L` and at least one of ArrowUp / ArrowDown is held, the step ends with
`x = max(L.x1, min(L.x2 − CHAR_W, x_wallclamped))`,
`y = max(L.yTop, min(L.yBot, y_old − 4·[Up] + 4·[Down]))`, `vy = 0` and on-ground false; hence
`y` ends inside `[L.yTop, L.yBot]` for every ladder with `yTop ≤ yBot`, in particular for every
ladder of a world built by `rebuildWorld`; holding both keys applies no net climb but still
the clamp. -/
theorem focusedStep_climb (innerWidth : ℚ) (objects : List WorldObj) (keys : Keys)
    (c : Character) (L : Ladder)
    (hg : getLadder objects (wallClampX innerWidth keys c.x) c.y = some L)
    (hk : keys.ArrowUp = true ∨ keys.ArrowDown = true) :
    focusedStep innerWidth objects keys c
      = ⟨max L.x1 (min (L.x2 - CHAR_W) (wallClampX innerWidth keys c.x)),
          max L.yTop (min L.yBot
            (c.y - (if keys.ArrowUp then 4 else 0) + (if keys.ArrowDown then 4 else 0))),
          0, false⟩ ∧
    (L.yTop ≤ L.yBot →
      L.yTop ≤ (focusedStep innerWidth objects keys c).y ∧
      (focusedStep innerWidth objects keys c).y ≤ L.yBot) ∧
    (∀ (level : LevelConfig) (builtWidth : ℚ) (zones : List Zone),
      objects = buildObjects level builtWidth zones →
      L.yTop ≤ (focusedStep innerWidth objects keys c).y ∧
      (focusedStep innerWidth objects keys c).y ≤ L.yBot) ∧
    (keys.ArrowUp = true → keys.ArrowDown = true →
      (focusedStep innerWidth objects keys c).y = max L.yTop (min L.yBot c.y)) := by
  have hstep : focusedStep innerWidth objects keys c
      = ⟨max L.x1 (min (L.x2 - CHAR_W) (wallClampX innerWidth keys c.x)),
          max L.yTop (min L.yBot
            (c.y - (if keys.ArrowUp then 4 else 0) + (if keys.ArrowDown then 4 else 0))),
          0, false⟩ := by
    rw [focusedStep_onLadder hg, ladderBranch_climb L keys _ _ hk, CLIMB_SPEED]
    cases keys.ArrowUp <;> cases keys.ArrowDown <;> simp
  have hin : L.yTop ≤ L.yBot →
      L.yTop ≤ (focusedStep innerWidth objects keys c).y ∧
      (focusedStep innerWidth objects keys c).y ≤ L.yBot := by
    intro hle
    rw [hstep]
    exact ⟨le_max_left _ _, max_le hle (min_le_left _ _)⟩
  refine ⟨hstep, hin, ?_, ?_⟩
  · intro level builtWidth zones hobj
    subst hobj
    exact hin (buildObjects_ladder_yTop_le_yBot (getLadder_some_spec hg).1)
  · intro hu hd
    rw [hstep]
    simp [hu, hd]

/-- C16 witness: on the ladder `[876, 930] × [212, 1192]` at width 1000, climbing up from
`(900, 180)` inside the band above the top ends at `(898, 212)`. -/
theorem focusedStep_climb_witness :
    focusedStep 1000 [WorldObj.ladder ⟨876, 930, 212, 1192⟩]
        ⟨false, false, true, false, false⟩ ⟨900, 180, 3, true⟩
      = ⟨max 876 (min (930 - CHAR_W) (wallClampX 1000 ⟨false, false, true, false, false⟩ 900)),
          max 212 (min 1192 (180 - (if true then 4 else 0) + (if false then 4 else 0))),
          0, false⟩ :=
  (focusedStep_climb 1000 [WorldObj.ladder ⟨876, 930, 212, 1192⟩]
    ⟨false, false, true, false, false⟩ ⟨900, 180, 3, true⟩ ⟨876, 930, 212, 1192⟩
    (by norm_num [getLadder, wallClampX, TOWER_LEFT, TOWER_RIGHT, CHAR_W])
    (Or.inl rfl)).1

/-- C18: for every world built by `rebuildWorld` and every Focused step in which
`getLadder(x_clamped, y)` returns the ladder `L` and a climb key is held, the resulting
position still satisfies `getLadder(x', y') = L`. -/
theorem focusedStep_climb_stays_on_ladder (level : LevelConfig) (builtWidth : ℚ)
    (zones : List Zone) (w : World) (innerWidth : ℚ) (keys : Keys) (c : Character) (L : Ladder)
    (hg : getLadder (rebuildWorld level builtWidth zones w).objects
      (wallClampX innerWidth keys c.x) c.y = some L)
    (hk : keys.ArrowUp = true ∨ keys.ArrowDown = true) :
    getLadder (rebuildWorld level builtWidth zones w).objects
      (focusedStep innerWidth (rebuildWorld level builtWidth zones w).objects keys c).x
      (focusedStep innerWidth (rebuildWorld level builtWidth zones w).objects keys c).y
      = some L := by
  simp only [rebuildWorld] at hg ⊢
  have hm := (getLadder_some_spec hg).1
  have hle := buildObjects_ladder_yTop_le_yBot hm
  obtain ⟨hx1, hx2⟩ := buildObjects_ladder_x hm
  rw [focusedStep_onLadder hg, ladderBranch_climb L keys _ _ hk]
  refine getLadder_buildObjects_eq hm ⟨?_, ?_⟩ ⟨?_, ?_⟩
  · show max L.x1 _ + CHAR_W > L.x1
    have := le_max_left L.x1 (min (L.x2 - CHAR_W) (wallClampX innerWidth keys c.x))
    unfold CHAR_W at *
    linarith
  · show max L.x1 _ < L.x2
    rw [hx2, hx1, getLadderX2, LADDER_W, CHAR_W]
    refine max_lt (by linarith) (lt_of_le_of_lt (min_le_left _ _) (by linarith))
  · show max L.yTop _ ≥ L.yTop - 40
    have := le_max_left L.yTop (min L.yBot
      ((if keys.ArrowUp then c.y - CLIMB_SPEED else c.y) +
        (if keys.ArrowDown then CLIMB_SPEED else 0)))
    linarith
  · show max L.yTop _ ≤ L.yBot + 40
    refine max_le (by linarith) ((min_le_left _ _).trans (by linarith))

/-- C18 witness: floors hero (top 0) and about (top 1000) at width 1000; climbing down from the
bottom end `(887, 1192)` of the ladder keeps the character on it. -/
theorem focusedStep_climb_stays_on_ladder_witness :
    getLadder (rebuildWorld LEVEL 1000 [⟨"hero", some 0⟩, ⟨"about", some 1000⟩]
        ⟨[], Character.initial⟩).objects
      (focusedStep 1000 (rebuildWorld LEVEL 1000 [⟨"hero", some 0⟩, ⟨"about", some 1000⟩]
        ⟨[], Character.initial⟩).objects ⟨false, false, false, true, false⟩
        ⟨887, 1192, 0, false⟩).x
      (focusedStep 1000 (rebuildWorld LEVEL 1000 [⟨"hero", some 0⟩, ⟨"about", some 1000⟩]
        ⟨[], Character.initial⟩).objects ⟨false, false, false, true, false⟩
        ⟨887, 1192, 0, false⟩).y
      = some ⟨876, 930, 212, 1192⟩ :=
  focusedStep_climb_stays_on_ladder LEVEL 1000 [⟨"hero", some 0⟩, ⟨"about", some 1000⟩]
    ⟨[], Character.initial⟩ 1000 ⟨false, false, false, true, false⟩ ⟨887, 1192, 0, false⟩
    ⟨876, 930, 212, 1192⟩
    (by
      have hl : WorldObj.ladder ⟨876, 930, 212, 1192⟩ ∈
          buildObjects LEVEL 1000 [⟨"hero", some 0⟩, ⟨"about", some 1000⟩] := by
        refine mem_buildObjects.2 (Or.inr ?_)
        rw [ladderObjects_some (by decide)]
        have hne : ¬ ("about" = "hero") := by decide
        norm_num [floorMeta, floorMetaOf, LEVEL, mathMin, mathMax, List.insertionSort,
          List.orderedInsert, CHAR_H, LADDER_W, getLadderX1, getLadderX2,
          LADDER_MARGIN_RIGHT, hne]
      exact getLadder_buildObjects_eq hl
        (by norm_num [withinX, wallClampX, TOWER_LEFT, TOWER_RIGHT, CHAR_W])
        (by norm_num [withinY]))
    (Or.inr rfl)

/-! ## C19 and C17: landing in a sorted world -/

/-- In a list sorted by `sortKey`, the platform returned by `findLandingPlatform` has the
least `y` among the platforms that pass both tests. -/
theorem findLandingPlatform_min_of_sorted {objects : List WorldObj}
    (hs : objects.Sorted (fun a b => sortKey a ≤ sortKey b)) {x a b : ℚ} {p : Platform}
    (h : findLandingPlatform objects x a b = some p) :
    ∀ q, WorldObj.platform q ∈ objects → withinX x q.x1 q.x2 → crossed a b q.y →
      p.y ≤ q.y := by
  induction objects with
  | nil => simp [findLandingPlatform] at h
  | cons o rest ih =>
    intro q hq hqx hqy
    cases o with
    | ladder l =>
      rw [findLandingPlatform_ladder_cons] at h
      rcases List.mem_cons.1 hq with hq | hq
      · cases hq
      · exact ih (List.Sorted.of_cons hs) h q hq hqx hqy
    | platform o =>
      rw [findLandingPlatform_platform_cons] at h
      by_cases hc : withinX x o.x1 o.x2 ∧ crossed a b o.y
      · rw [if_pos hc] at h
        cases h
        rcases List.mem_cons.1 hq with hq | hq
        · cases hq
          exact le_refl _
        · exact List.rel_of_sorted_cons hs _ hq
      · rw [if_neg hc] at h
        rcases List.mem_cons.1 hq with hq | hq
        · cases hq
          exact absurd ⟨hqx, hqy⟩ hc
        · exact ih (List.Sorted.of_cons hs) h q hq hqx hqy

theorem findLandingPlatform_none_spec {objects : List WorldObj} {x a b : ℚ}
    (h : findLandingPlatform objects x a b = none) :
    ∀ q, WorldObj.platform q ∈ objects → ¬ (withinX x q.x1 q.x2 ∧ crossed a b q.y) :=
  fun _ hq hc => findLandingPlatform_isSome_of_mem hq hc.1 hc.2 h

/-- Two sorted lists with the same platforms stop a fall at the same height. -/
theorem findLandingPlatform_y_of_same_platforms {l1 l2 : List WorldObj}
    (hs1 : l1.Sorted (fun a b => sortKey a ≤ sortKey b))
    (hs2 : l2.Sorted (fun a b => sortKey a ≤ sortKey b))
    (hsame : ∀ q, WorldObj.platform q ∈ l1 ↔ WorldObj.platform q ∈ l2) (x a b : ℚ) :
    (findLandingPlatform l1 x a b).map (fun p => p.y)
      = (findLandingPlatform l2 x a b).map (fun p => p.y) := by
  cases h1 : findLandingPlatform l1 x a b with
  | none =>
    cases h2 : findLandingPlatform l2 x a b with
    | none => rfl
    | some p2 =>
      obtain ⟨hm, hx, hy⟩ := findLandingPlatform_some_spec h2
      exact absurd h1 (findLandingPlatform_isSome_of_mem ((hsame p2).2 hm) hx hy)
  | some p1 =>
    obtain ⟨hm1, hx1, hy1⟩ := findLandingPlatform_some_spec h1
    cases h2 : findLandingPlatform l2 x a b with
    | none => exact absurd h2 (findLandingPlatform_isSome_of_mem ((hsame p1).1 hm1) hx1 hy1)
    | some p2 =>
      obtain ⟨hm2, hx2, hy2⟩ := findLandingPlatform_some_spec h2
      have e : p1.y = p2.y :=
        le_antisymm (findLandingPlatform_min_of_sorted hs1 h1 p2 ((hsame p2).2 hm2) hx2 hy2)
          (findLandingPlatform_min_of_sorted hs2 h2 p1 ((hsame p1).1 hm1) hx1 hy1)
      simp only [Option.map_some', e]

/-- C19: for every world built by `rebuildWorld` and every `x`, `prevBottom`, `nextBottom`: if
`findLandingPlatform` returns `p`, then `p` is a platform of the world with horizontal overlap
and `prevBottom ≤ p.y ≤ nextBottom`, and `p.y` is the least `y` among all such platforms; if it
returns none, no platform of the world overlaps and was crossed; and the height returned is
the same for any two built worlds holding the same set of platforms. -/
theorem findLandingPlatform_highest_crossed (level : LevelConfig) (innerWidth : ℚ)
    (zones : List Zone) (w : World) (x prevBottom nextBottom : ℚ) :
    (∀ p, findLandingPlatform (rebuildWorld level innerWidth zones w).objects x prevBottom
        nextBottom = some p →
      WorldObj.platform p ∈ (rebuildWorld level innerWidth zones w).objects ∧
      (x + CHAR_W > p.x1 ∧ x < p.x2) ∧ (prevBottom ≤ p.y ∧ p.y ≤ nextBottom) ∧
      ∀ q, WorldObj.platform q ∈ (rebuildWorld level innerWidth zones w).objects →
        x + CHAR_W > q.x1 → x < q.x2 → prevBottom ≤ q.y → q.y ≤ nextBottom → p.y ≤ q.y) ∧
    (findLandingPlatform (rebuildWorld level innerWidth zones w).objects x prevBottom
        nextBottom = none →
      ∀ q, WorldObj.platform q ∈ (rebuildWorld level innerWidth zones w).objects →
        ¬ (x + CHAR_W > q.x1 ∧ x < q.x2 ∧ prevBottom ≤ q.y ∧ q.y ≤ nextBottom)) ∧
    (∀ (level2 : LevelConfig) (innerWidth2 : ℚ) (zones2 : List Zone) (w2 : World),
      (∀ q, WorldObj.platform q ∈ (rebuildWorld level innerWidth zones w).objects ↔
        WorldObj.platform q ∈ (rebuildWorld level2 innerWidth2 zones2 w2).objects) →
      (findLandingPlatform (rebuildWorld level innerWidth zones w).objects x prevBottom
          nextBottom).map (fun p => p.y)
        = (findLandingPlatform (rebuildWorld level2 innerWidth2 zones2 w2).objects x
          prevBottom nextBottom).map (fun p => p.y)) := by
  simp only [rebuildWorld]
  have hs := buildObjects_sorted level innerWidth zones
  refine ⟨?_, ?_, ?_⟩
  · intro p hp
    obtain ⟨hm, hx, hy⟩ := findLandingPlatform_some_spec hp
    exact ⟨hm, hx, hy, fun q hq h1 h2 h3 h4 =>
      findLandingPlatform_min_of_sorted hs hp q hq ⟨h1, h2⟩ ⟨h3, h4⟩⟩
  · intro hn q hq hc
    exact findLandingPlatform_none_spec hn q hq ⟨⟨hc.1, hc.2.1⟩, ⟨hc.2.2.1, hc.2.2.2⟩⟩
  · intro level2 innerWidth2 zones2 w2 hsame
    exact findLandingPlatform_y_of_same_platforms hs
      (buildObjects_sorted level2 innerWidth2 zones2) hsame x prevBottom nextBottom

/-- C19 witness: in the world rebuilt for floor hero (top 0, width 1000, shipped level), the
query at `x = 100` with the bottom edge moving from 259 to 261 returns the fallback ledge at
`y = 260`, no higher than any crossed platform. -/
theorem findLandingPlatform_highest_crossed_witness :
    WorldObj.platform ⟨"hero", 80, 866, 260⟩ ∈
      (rebuildWorld LEVEL 1000 [⟨"hero", some 0⟩] ⟨[], Character.initial⟩).objects ∧
    ((100 : ℚ) + CHAR_W > (⟨"hero", 80, 866, 260⟩ : Platform).x1 ∧
      (100 : ℚ) < (⟨"hero", 80, 866, 260⟩ : Platform).x2) ∧
    ((259 : ℚ) ≤ (⟨"hero", 80, 866, 260⟩ : Platform).y ∧
      (⟨"hero", 80, 866, 260⟩ : Platform).y ≤ 261) ∧
    ∀ q, WorldObj.platform q ∈
        (rebuildWorld LEVEL 1000 [⟨"hero", some 0⟩] ⟨[], Character.initial⟩).objects →
      (100 : ℚ) + CHAR_W > q.x1 → 100 < q.x2 → 259 ≤ q.y → q.y ≤ 261 →
      (⟨"hero", 80, 866, 260⟩ : Platform).y ≤ q.y :=
  (findLandingPlatform_highest_crossed LEVEL 1000 [⟨"hero", some 0⟩] ⟨[], Character.initial⟩
    100 259 261).1 ⟨"hero", 80, 866, 260⟩
    (by
      simp only [rebuildWorld, buildObjects_hero_1000]
      norm_num [findLandingPlatform, CHAR_W])

theorem wallClampX_no_move {innerWidth : ℚ} {keys : Keys} {x : ℚ}
    (hl : keys.ArrowLeft = false) (hr : keys.ArrowRight = false) :
    wallClampX innerWidth keys x = max TOWER_LEFT (min (innerWidth - TOWER_RIGHT - CHAR_W) x) := by
  simp [wallClampX, hl, hr]

theorem wallClampX_inside {innerWidth : ℚ} {keys : Keys} {x : ℚ}
    (hl : keys.ArrowLeft = false) (hr : keys.ArrowRight = false)
    (h1 : TOWER_LEFT ≤ x) (h2 : x ≤ innerWidth - TOWER_RIGHT - CHAR_W) :
    wallClampX innerWidth keys x = x := by
  rw [wallClampX_no_move hl hr, min_eq_right h2, max_eq_right h1]

/-- Resting on a platform of a sorted world: off the ladder, with `vy = 0` and no jump, the
step lands the character back at the same height. -/
theorem focusedStep_rest_of_sorted {objects : List WorldObj}
    (hs : objects.Sorted (fun a b => sortKey a ≤ sortKey b)) {innerWidth : ℚ} {keys : Keys}
    {c : Character} {p : Platform} (hm : WorldObj.platform p ∈ objects)
    (hy : c.y = p.y - CHAR_H) (hv : c.vy = 0)
    (hsp : keys.Space = false) (hup : keys.ArrowUp = false)
    (hoff : getLadder objects (wallClampX innerWidth keys c.x) c.y = none)
    (hx1 : wallClampX innerWidth keys c.x + CHAR_W > p.x1)
    (hx2 : wallClampX innerWidth keys c.x < p.x2) :
    focusedStep innerWidth objects keys c = ⟨wallClampX innerWidth keys c.x, c.y, 0, true⟩ := by
  have hj : jumpGravityVy keys c = GRAVITY := by
    simp [jumpGravityVy, jumps, hsp, hup, hv]
  have hpos : jumpGravityVy keys c > 0 := by
    rw [hj, GRAVITY]
    norm_num
  have hcross : crossed (c.y + CHAR_H) (c.y + jumpGravityVy keys c + CHAR_H) p.y := by
    rw [hj, hy, GRAVITY]
    constructor
    · linarith
    · show p.y ≤ p.y - CHAR_H + 9 / 10 + CHAR_H
      linarith
  cases hf : findLandingPlatform objects (wallClampX innerWidth keys c.x) (c.y + CHAR_H)
      (c.y + jumpGravityVy keys c + CHAR_H) with
  | none => exact absurd hf (findLandingPlatform_isSome_of_mem hm ⟨hx1, hx2⟩ hcross)
  | some q =>
    rw [focusedStep_offLadder hoff, physicsBranch_landing hpos hf]
    have hle := findLandingPlatform_min_of_sorted hs hf p hm ⟨hx1, hx2⟩ hcross
    have hge := (findLandingPlatform_some_spec hf).2.2.1
    have e : q.y = p.y := le_antisymm hle (by rw [hy] at hge; linarith)
    rw [e, hy]

/-! ## C17: resting on a platform -/

/-- C17 (as stated, refuted): mount at width 150 with floor hero (top 0, shipped level): the
character spawns at `(37, 212)` on the platform `[60, 280] @ y 260`; resize to width 1000.  The
character stands exactly on that platform with `vy = 0`, off the ladder, no key held, its
wall-clamped x-extent overlapping the platform, yet the Focused step moves `x` from 37 to 60
(`y` stays 212). -/
theorem focusedStep_rest_moves_x :
    rebuildWorld LEVEL 1000 [⟨"hero", some 0⟩]
        (rebuildWorld LEVEL 150 [⟨"hero", some 0⟩] ⟨[], Character.initial⟩)
      = ⟨[WorldObj.platform ⟨"hero", 80, 866, 260⟩, WorldObj.platform ⟨"hero", 60, 280, 260⟩,
          WorldObj.platform ⟨"hero", 360, 540, 340⟩], ⟨37, 212, 0, true⟩⟩ ∧
    (212 : ℚ) = (⟨"hero", 60, 280, 260⟩ : Platform).y - CHAR_H ∧
    wallClampX 1000 Keys.none 37 = 60 ∧
    ((60 : ℚ) + CHAR_W > (⟨"hero", 60, 280, 260⟩ : Platform).x1 ∧
      (60 : ℚ) < (⟨"hero", 60, 280, 260⟩ : Platform).x2) ∧
    getLadder [WorldObj.platform ⟨"hero", 80, 866, 260⟩,
      WorldObj.platform ⟨"hero", 60, 280, 260⟩, WorldObj.platform ⟨"hero", 360, 540, 340⟩]
      60 212 = none ∧
    focusedStep 1000 [WorldObj.platform ⟨"hero", 80, 866, 260⟩,
      WorldObj.platform ⟨"hero", 60, 280, 260⟩, WorldObj.platform ⟨"hero", 360, 540, 340⟩]
      Keys.none ⟨37, 212, 0, true⟩ = ⟨60, 212, 0, true⟩ ∧
    (focusedStep 1000 [WorldObj.platform ⟨"hero", 80, 866, 260⟩,
      WorldObj.platform ⟨"hero", 60, 280, 260⟩, WorldObj.platform ⟨"hero", 360, 540, 340⟩]
      Keys.none ⟨37, 212, 0, true⟩).x ≠ 37 := by
  have h150 : buildObjects LEVEL 150 [⟨"hero", some 0⟩] =
      [WorldObj.platform ⟨"hero", 60, 280, 260⟩, WorldObj.platform ⟨"hero", 360, 540, 340⟩] := by
    norm_num [buildObjects, unsortedObjects, floorObjects, fallbackPlatforms,
      authoredPlatforms, ladderObjects, floorMeta, floorMetaOf, LEVEL, getLadderX1,
      LADDER_MARGIN_RIGHT, LADDER_W, sortKey, List.insertionSort, List.orderedInsert]
  have hstep : focusedStep 1000 [WorldObj.platform ⟨"hero", 80, 866, 260⟩,
      WorldObj.platform ⟨"hero", 60, 280, 260⟩, WorldObj.platform ⟨"hero", 360, 540, 340⟩]
      Keys.none ⟨37, 212, 0, true⟩ = ⟨60, 212, 0, true⟩ := by
    norm_num [focusedStep, getLadder, wallClampX, physicsBranch, jumpGravityVy, jumps,
      findLandingPlatform, Keys.none, TOWER_LEFT, TOWER_RIGHT, CHAR_W, CHAR_H, GRAVITY]
  refine ⟨?_, by norm_num [CHAR_H], ?_, by norm_num [CHAR_W], rfl, hstep, ?_⟩
  · simp only [rebuildWorld, buildObjects_hero_1000, h150]
    norm_num [spawn, firstPlatform, Character.initial, getLadderXCenter, getLadderX1,
      LADDER_MARGIN_RIGHT, LADDER_W, CHAR_W, CHAR_H]
  · norm_num [wallClampX, Keys.none, TOWER_LEFT, TOWER_RIGHT, CHAR_W]
  · rw [hstep]
    norm_num

/-- C17 (amended): for every world built by `rebuildWorld`, if the character stands exactly on
a platform `p` (`y = p.y − CHAR_H`, x-extent overlapping `p` after the wall clamp), has
`vy = 0`, is not on a ladder and none of ArrowLeft, ArrowRight, Space, ArrowUp is held
(ArrowDown does nothing off the ladder), then after the step `y` is unchanged, `vy = 0`, on-ground is true and `x` is the wall-clamped `x`; `x` too is unchanged
whenever it already lies within the walls `[TOWER_LEFT, innerWidth − TOWER_RIGHT − CHAR_W]`. -/
theorem focusedStep_rest_fixed_point (level : LevelConfig) (builtWidth : ℚ) (zones : List Zone)
    (w : World) (innerWidth : ℚ) (keys : Keys) (c : Character) (p : Platform)
    (hm : WorldObj.platform p ∈ (rebuildWorld level builtWidth zones w).objects)
    (hy : c.y = p.y - CHAR_H) (hv : c.vy = 0)
    (hl : keys.ArrowLeft = false) (hr : keys.ArrowRight = false)
    (hsp : keys.Space = false) (hup : keys.ArrowUp = false)
    (hoff : getLadder (rebuildWorld level builtWidth zones w).objects
      (wallClampX innerWidth keys c.x) c.y = none)
    (hx1 : wallClampX innerWidth keys c.x + CHAR_W > p.x1)
    (hx2 : wallClampX innerWidth keys c.x < p.x2) :
    focusedStep innerWidth (rebuildWorld level builtWidth zones w).objects keys c
      = ⟨max TOWER_LEFT (min (innerWidth - TOWER_RIGHT - CHAR_W) c.x), c.y, 0, true⟩ ∧
    (TOWER_LEFT ≤ c.x → c.x ≤ innerWidth - TOWER_RIGHT - CHAR_W →
      focusedStep innerWidth (rebuildWorld level builtWidth zones w).objects keys c
        = ⟨c.x, c.y, 0, true⟩) := by
  have h := focusedStep_rest_of_sorted (buildObjects_sorted level builtWidth zones) hm hy hv
    hsp hup hoff hx1 hx2
  constructor
  · rw [← wallClampX_no_move hl hr]
    exact h
  · intro h1 h2
    rw [← wallClampX_inside hl hr h1 h2]
    exact h

/-- C17 witness: the world rebuilt for floor hero (top 0, width 1000, shipped level); a
character at rest at `(100, 212)` on the platforms at `y = 260` stays where it is. -/
theorem focusedStep_rest_fixed_point_witness :
    focusedStep 1000 (rebuildWorld LEVEL 1000 [⟨"hero", some 0⟩]
        ⟨[], Character.initial⟩).objects Keys.none ⟨100, 212, 0, true⟩
      = ⟨100, 212, 0, true⟩ :=
  (focusedStep_rest_fixed_point LEVEL 1000 [⟨"hero", some 0⟩] ⟨[], Character.initial⟩ 1000
    Keys.none ⟨100, 212, 0, true⟩ ⟨"hero", 60, 280, 260⟩
    (by simp only [rebuildWorld, buildObjects_hero_1000]; simp)
    (by norm_num [CHAR_H]) rfl rfl rfl rfl rfl
    (by simp only [rebuildWorld, buildObjects_hero_1000]; rfl)
    (by norm_num [wallClampX, Keys.none, TOWER_LEFT, TOWER_RIGHT, CHAR_W])
    (by norm_num [wallClampX, Keys.none, TOWER_LEFT, TOWER_RIGHT, CHAR_W])).2
    (by norm_num [TOWER_LEFT]) (by norm_num [TOWER_RIGHT, CHAR_W])

/-! ## C20: the spawn position -/

theorem standYOf_eq (level : LevelConfig) (id : String) (top : ℚ) :
    standYOf level id top = top + firstYOffset level id - 48 := rfl

theorem LEVEL_offsets_tight : LevelOffsetsTight LEVEL := by
  intro id
  unfold firstYOffset LEVEL
  split_ifs <;> simp only [Option.getD_some, Option.getD_none] <;>
    refine ⟨by norm_num, ?_⟩ <;> intro p hp <;> simp at hp
  all_goals
    rcases hp with rfl | hp
    · norm_num
    try
      rcases hp with rfl | hp
      · norm_num
    try
      rcases hp with rfl
      norm_num

theorem floorObjects_platform_y {level : LevelConfig} {innerWidth : ℚ} {z : Zone} {top : ℚ}
    (ht : z.top = some top) {q : Platform}
    (hq : WorldObj.platform q ∈ floorObjects level innerWidth z) :
    q.y = top + 260 ∨ ∃ p ∈ (level z.id).getD [], q.y = top + p.yOffset := by
  unfold floorObjects at hq
  simp only [ht, List.mem_append] at hq
  rcases hq with h | h
  · left
    unfold fallbackPlatforms at h
    simp only at h
    split at h
    · rw [List.mem_singleton] at h
      cases h
      rw [DEFAULT_PLATFORM_Y_OFFSET]
    · simp at h
  · right
    unfold authoredPlatforms at h
    obtain ⟨p, hp, he⟩ := List.mem_map.1 h
    cases he
    exact ⟨p, hp, rfl⟩

theorem floorObjects_no_ladder {level : LevelConfig} {innerWidth : ℚ} {z : Zone} {L : Ladder}
    (h : WorldObj.ladder L ∈ floorObjects level innerWidth z) : False := by
  have := floorObjects_isPlatform h
  simp [WorldObj.isPlatform] at this

/-- A platform of the built world belongs to a measurable floor. -/
theorem buildObjects_platform_floor {level : LevelConfig} {innerWidth : ℚ} {zones : List Zone}
    {q : Platform} (hq : WorldObj.platform q ∈ buildObjects level innerWidth zones) :
    ∃ z ∈ zones, ∃ top, z.top = some top ∧
      WorldObj.platform q ∈ floorObjects level innerWidth z := by
  rcases mem_buildObjects.1 hq with ⟨z, hz, hzq⟩ | hl
  · cases ht : z.top with
    | none => simp [floorObjects, ht] at hzq
    | some top => exact ⟨z, hz, top, ht, hzq⟩
  · have := ladderObjects_isLadder hl
    simp [WorldObj.isLadder] at this

theorem standY_mem_floorMeta {level : LevelConfig} {zones : List Zone} {z : Zone} {top : ℚ}
    (hz : z ∈ zones) (ht : z.top = some top) :
    top + firstYOffset level z.id - 48 ∈ (floorMeta level zones).map (fun f => f.standY) := by
  rw [(floorMeta_standY_perm level zones).mem_iff, measurableStandYs, List.mem_filterMap]
  exact ⟨z, hz, by rw [ht]; rfl⟩

/-- The lowest platform of a floor is no lower than the floor's first platform line. -/
theorem min_platform_le_first {level : LevelConfig} {innerWidth : ℚ} {zones : List Zone}
    {z : Zone} {top : ℚ} {p0 : Platform} (hz : z ∈ zones) (ht : z.top = some top)
    (hp0 : WorldObj.platform p0 ∈ floorObjects level innerWidth z)
    (hmin : ∀ q, WorldObj.platform q ∈ buildObjects level innerWidth zones → p0.y ≤ q.y) :
    p0.y ≤ top + firstYOffset level z.id := by
  unfold firstYOffset
  cases hl : (level z.id).getD [] with
  | nil =>
    rcases floorObjects_platform_y ht hp0 with h | ⟨p, hp, _⟩
    · simp only [h, le_refl]
    · rw [hl] at hp
      simp at hp
  | cons f t =>
    have hf : WorldObj.platform ⟨z.id, f.x, f.x + f.w, top + f.yOffset⟩
        ∈ buildObjects level innerWidth zones := by
      refine mem_buildObjects.2 (Or.inl ⟨z, hz, ?_⟩)
      unfold floorObjects
      simp only [ht]
      refine List.mem_append_right _ ?_
      unfold authoredPlatforms
      rw [hl]
      exact List.mem_cons_self _ _
    exact hmin _ hf

theorem spawn_x_on_ladder_column {innerWidth : ℚ} (hw : 130 < innerWidth) :
    withinX (wallClampX innerWidth Keys.none (getLadderXCenter innerWidth))
      (getLadderX1 innerWidth) (getLadderX2 innerWidth) := by
  have hk : wallClampX innerWidth Keys.none (getLadderXCenter innerWidth)
      = max 60 (innerWidth - 113) := by
    rw [wallClampX_no_move rfl rfl, getLadderXCenter_eq, getLadderX1_eq,
      max_eq_right (by linarith : (0 : ℚ) ≤ innerWidth - 124), TOWER_LEFT, TOWER_RIGHT, CHAR_W,
      min_eq_right (by linarith)]
    congr 1
    ring
  rw [hk, getLadderX2, getLadderX1_eq, max_eq_right (by linarith : (0 : ℚ) ≤ innerWidth - 124),
    LADDER_W]
  constructor
  · show max 60 (innerWidth - 113) + CHAR_W > innerWidth - 124
    have := le_max_right (60 : ℚ) (innerWidth - 113)
    rw [CHAR_W]
    linarith
  · exact max_lt (by linarith) (by linarith)

/-- C20 (as stated, refuted): mounting with the single measurable floor hero (top 0, width
1000, shipped level) spawns the unset character at `(887, 212)`, right of the fallback ledge
`[80, 866]` and with no ladder in the world; the Focused step with no key held that follows
moves `y` to `212.9`: the character starts falling. -/
theorem spawn_unsupported_single_floor :
    (rebuildWorld LEVEL 1000 [⟨"hero", some 0⟩] ⟨[], Character.initial⟩).char
      = ⟨887, 212, 0, true⟩ ∧
    Character.initial.y = 0 ∧
    WorldObj.platform ⟨"hero", 80, 866, 260⟩ ∈
      (rebuildWorld LEVEL 1000 [⟨"hero", some 0⟩] ⟨[], Character.initial⟩).objects ∧
    focusedStep 1000 (rebuildWorld LEVEL 1000 [⟨"hero", some 0⟩] ⟨[], Character.initial⟩).objects
        Keys.none (rebuildWorld LEVEL 1000 [⟨"hero", some 0⟩] ⟨[], Character.initial⟩).char
      = ⟨887, 2129 / 10, 9 / 10, false⟩ ∧
    (focusedStep 1000 (rebuildWorld LEVEL 1000 [⟨"hero", some 0⟩]
        ⟨[], Character.initial⟩).objects
        Keys.none (rebuildWorld LEVEL 1000 [⟨"hero", some 0⟩] ⟨[], Character.initial⟩).char).y
      ≠ (rebuildWorld LEVEL 1000 [⟨"hero", some 0⟩] ⟨[], Character.initial⟩).char.y := by
  have hc : (rebuildWorld LEVEL 1000 [⟨"hero", some 0⟩] ⟨[], Character.initial⟩).char
      = ⟨887, 212, 0, true⟩ := by
    simp only [rebuildWorld, buildObjects_hero_1000]
    norm_num [spawn, firstPlatform, Character.initial, getLadderXCenter, getLadderX1,
      LADDER_MARGIN_RIGHT, LADDER_W, CHAR_W, CHAR_H]
  have hstep : focusedStep 1000
      (rebuildWorld LEVEL 1000 [⟨"hero", some 0⟩] ⟨[], Character.initial⟩).objects
      Keys.none ⟨887, 212, 0, true⟩ = ⟨887, 2129 / 10, 9 / 10, false⟩ := by
    simp only [rebuildWorld, buildObjects_hero_1000]
    norm_num [focusedStep, getLadder, wallClampX, physicsBranch, jumpGravityVy, jumps,
      findLandingPlatform, Keys.none, TOWER_LEFT, TOWER_RIGHT, CHAR_W, CHAR_H, GRAVITY]
  refine ⟨hc, rfl, ?_, ?_, ?_⟩
  · simp only [rebuildWorld, buildObjects_hero_1000]
    exact List.mem_cons_self _ _
  · rw [hc, hstep]
  · rw [hc, hstep]
    norm_num

/-- C20 (amended): when `rebuildWorld` spawns the character (unset character, at least one
platform in the built world) with at least two measurable floors, a viewport wider than 130
and a level in which no platform of a floor lies more than 40 above the floor's first platform
(the shipped level is one), the spawn point is within the ladder's grab region (`getLadder`
returns the ladder at the wall-clamped spawn `x`), so a Focused step with no key held taken
immediately afterwards leaves `y` unchanged. -/
theorem spawn_supported_by_ladder (level : LevelConfig) (innerWidth : ℚ) (zones : List Zone)
    (w : World) (hunset : w.char.y = 0)
    (hplat : ∃ q, WorldObj.platform q ∈ (rebuildWorld level innerWidth zones w).objects)
    (h2 : 2 ≤ measurableCount zones) (hw : 130 < innerWidth)
    (hlevel : LevelOffsetsTight level) :
    getLadder (rebuildWorld level innerWidth zones w).objects
      (wallClampX innerWidth Keys.none (rebuildWorld level innerWidth zones w).char.x)
      (rebuildWorld level innerWidth zones w).char.y ≠ none ∧
    (focusedStep innerWidth (rebuildWorld level innerWidth zones w).objects Keys.none
      (rebuildWorld level innerWidth zones w).char).y
      = (rebuildWorld level innerWidth zones w).char.y := by
  simp only [rebuildWorld] at hplat ⊢
  obtain ⟨q0, hq0⟩ := hplat
  cases hf : firstPlatform (buildObjects level innerWidth zones) with
  | none => exact absurd hf (firstPlatform_ne_none hq0)
  | some p0 =>
    have hsp : spawn innerWidth (buildObjects level innerWidth zones) w.char
        = ⟨getLadderXCenter innerWidth, p0.y - CHAR_H, 0, true⟩ := by
      simp only [spawn, hf, if_pos hunset]
    have hmin := firstPlatform_le_of_sorted (buildObjects_sorted level innerWidth zones) hf
    obtain ⟨z, hz, top, ht, hp0z⟩ := buildObjects_platform_floor (firstPlatform_mem hf)
    have hstand := @standY_mem_floorMeta level zones z top hz ht
    have hne : (floorMeta level zones).map (fun f => f.standY) ≠ [] :=
      List.ne_nil_of_mem hstand
    have hL : WorldObj.ladder ⟨getLadderX1 innerWidth, getLadderX2 innerWidth,
        mathMin ((floorMeta level zones).map (fun f => f.standY)),
        mathMax ((floorMeta level zones).map (fun f => f.standY))⟩
        ∈ buildObjects level innerWidth zones := by
      refine mem_buildObjects.2 (Or.inr ?_)
      rw [ladderObjects_some h2]
      exact List.mem_singleton_self _
    have hlo : top + firstYOffset level z.id - 40 ≤ p0.y := by
      rcases floorObjects_platform_y ht hp0z with h | ⟨p, hp, h⟩
      · rw [h]
        have := (hlevel z.id).1
        linarith
      · rw [h]
        have := (hlevel z.id).2 p hp
        linarith
    have hhi := min_platform_le_first hz ht hp0z hmin
    have hminle := (mathMin_spec hne).2 _ hstand
    have hmaxge := (mathMax_spec hne).2 _ hstand
    have hy : withinY (p0.y - CHAR_H)
        (mathMin ((floorMeta level zones).map (fun f => f.standY)))
        (mathMax ((floorMeta level zones).map (fun f => f.standY))) := by
      unfold withinY CHAR_H
      constructor <;> linarith
    have hg := getLadder_buildObjects_eq hL (spawn_x_on_ladder_column hw) hy
    rw [hsp]
    refine ⟨by rw [hg]; simp, ?_⟩
    have hstep := @focusedStep_onLadder innerWidth (buildObjects level innerWidth zones)
      Keys.none ⟨getLadderXCenter innerWidth, p0.y - CHAR_H, 0, true⟩ _ hg
    rw [hstep, ladderBranch_no_climb _ _ _ _ rfl rfl]

/-- C20 witness: floors hero (top 0) and about (top 1000) with the shipped level at width
1000. -/
theorem spawn_supported_by_ladder_witness :
    getLadder (rebuildWorld LEVEL 1000 [⟨"hero", some 0⟩, ⟨"about", some 1000⟩]
        ⟨[], Character.initial⟩).objects
      (wallClampX 1000 Keys.none (rebuildWorld LEVEL 1000
        [⟨"hero", some 0⟩, ⟨"about", some 1000⟩] ⟨[], Character.initial⟩).char.x)
      (rebuildWorld LEVEL 1000 [⟨"hero", some 0⟩, ⟨"about", some 1000⟩]
        ⟨[], Character.initial⟩).char.y ≠ none ∧
    (focusedStep 1000 (rebuildWorld LEVEL 1000 [⟨"hero", some 0⟩, ⟨"about", some 1000⟩]
        ⟨[], Character.initial⟩).objects Keys.none
      (rebuildWorld LEVEL 1000 [⟨"hero", some 0⟩, ⟨"about", some 1000⟩]
        ⟨[], Character.initial⟩).char).y
      = (rebuildWorld LEVEL 1000 [⟨"hero", some 0⟩, ⟨"about", some 1000⟩]
        ⟨[], Character.initial⟩).char.y :=
  spawn_supported_by_ladder LEVEL 1000 [⟨"hero", some 0⟩, ⟨"about", some 1000⟩]
    ⟨[], Character.initial⟩ rfl
    ⟨⟨"hero", 60, 280, 260⟩, mem_buildObjects.2 (Or.inl ⟨⟨"hero", some 0⟩,
      List.mem_cons_self _ _, by norm_num [floorObjects, authoredPlatforms, LEVEL]⟩)⟩
    (by decide) (by norm_num) LEVEL_offsets_tight

end GameLayer
